import Mathlib

/-!
Verification of the PSP patient-journey data generators and the bronze
ingestion step.

Modelling conventions (shallow embedding of the Python sources):

* Timestamps (`datetime`) are integers counting seconds since the epoch;
  `timedelta(days = d)` is `d * 86400` seconds, `timedelta(hours = h)` is
  `h * 3600`.  A calendar date (`.date()`) is the day number `ts / 86400`,
  and `pd.to_datetime` of a date is midnight, `day * 86400`.
* Python's seeded pseudo-random sources (`random`, `np.random`) are
  modelled by one oracle stream of naturals (`RNG`).  Seeding with the
  configured seed fixes the stream, so a run is a pure function of the
  configuration, the stream and the wall clock; each primitive consumes
  stream values in the order the source draws, and returns a value in the
  same range as the source primitive.  The weights of a weighted draw only
  shape the distribution and are ignored by the selection.
* `datetime.now()` — the wall clock — is an explicit parameter `now`; every
  per-row `created_at = datetime.now()` is idealised to that one instant.
* Formatted string identifiers (`PSP-2024-000123`, `CASE-…`, `STAT-…`) are
  modelled structurally by the tuples of numbers they are built from, and
  the SHA-256 based `hash_patient_id` by the patient number it digests:
  the claims use only that these are fixed functions of their inputs.
* Float-valued rates and amounts are exact rationals, `int(x)` on a
  non-negative float is `Nat.floor`.
-/

namespace PSP

/-- The pseudo-random oracle: a stream of naturals and the count of values
consumed so far.  `random.seed`/`np.random.seed` fix `f`; the generators
only thread the state. -/
structure RNG where
  f : Nat → Nat
  k : Nat

/-- Consume one value of the stream. -/
def RNG.next (g : RNG) : Nat × RNG := (g.f g.k, ⟨g.f, g.k + 1⟩)

/-- `random.randint(a, b)` / `np.random.randint(a, b + 1)`: an integer in
the inclusive range `[a, b]`, read off the stream. -/
def randint (a b : Int) (g : RNG) : Int × RNG :=
  let (v, g') := g.next
  (a + (v : Int) % (b - a + 1), g')

/-- A stream-determined index below `n`. -/
def choiceIdx (n : Nat) (g : RNG) : Nat × RNG :=
  let (v, g') := g.next
  (v % n, g')

/-- `random.choice(l)` / an unweighted `np.random.choice`: an element of
`l` selected by the stream (`d` is returned for an empty `l`). -/
def choice {α : Type} (l : List α) (d : α) (g : RNG) : α × RNG :=
  let (i, g') := choiceIdx l.length g
  (l.getD i d, g')

/-- `helpers.weighted_choice(choices, weights)` (via `random.choices`) and
`np.random.choice(…, p = …)`: an element of `choices`; the weights are
ignored by the model (see the header). -/
def weighted_choice {α : Type} (choices : List α) (weights : List ℚ) (d : α) (g : RNG) :
    α × RNG :=
  let _ := weights
  choice choices d g

/-- `random.random()`: modelled as a per-mille draw in `[0, 1000)`; a
comparison with a probability `p` compares with `1000 * p`. -/
def randUnit (g : RNG) : Nat × RNG :=
  let (v, g') := g.next
  (v % 1000, g')

/-- `random.uniform(0.7, 1.3)`: a per-mille draw in `[700, 1300]`. -/
def uniformPm (g : RNG) : Nat × RNG :=
  let (v, g') := g.next
  (700 + v % 601, g')

/-- `np.random.uniform(0, d)`: an integer in `[0, d)` (for `0 < d`). -/
def uniform0 (d : Int) (g : RNG) : Int × RNG :=
  let (v, g') := g.next
  ((v : Int) % d, g')

/-- `np.random.uniform(a, b)` for amounts: an integer value in `[a, b)`,
as an exact rational. -/
def uniformQ (a b : Int) (g : RNG) : ℚ × RNG :=
  let (v, g') := g.next
  (((a + (v : Int) % (b - a)) : ℤ), g')

/-- A vector of `cnt` draws, in stream order. -/
def draws {α : Type} (f : RNG → α × RNG) : Nat → RNG → List α × RNG
  | 0, g => ([], g)
  | Nat.succ m, g =>
    let (a, g) := f g
    let (rest, g) := draws f m g
    (a :: rest, g)

/-- `np.random.choice(df.index, size = cnt, …)`: `cnt` row indices below
`n` (the model may repeat an index; no claim depends on distinctness). -/
def pickIndices (n cnt : Nat) (g : RNG) : List Nat × RNG :=
  draws (choiceIdx n) cnt g

/-- `helpers.random_date_between(start, end)`: a random day offset within
the span, plus a random second of the day. -/
def random_date_between (start_date end_date : Int) (g : RNG) : Int × RNG :=
  let (rd, g) := randint 0 ((end_date - start_date) / 86400) g
  let (rs, g) := randint 0 86400 g
  (start_date + rd * 86400 + rs, g)

/-- Overwrite the rows of `df` at the given indices with `f` of the old
row (`df.loc[idx, col] = …` on a column modelled by the setter `f`). -/
def applyAt {α : Type} (f : α → α) : List Nat → List α → List α
  | [], df => df
  | i :: is, df =>
    match df.get? i with
    | some r => applyAt f is (df.set i (f r))
    | none => applyAt f is df

/-- `df.sample(frac = r, random_state = seed)`: a selection of
`⌊r * n⌋` rows of `df` (the seeded selection is read off the stream). -/
def sampleFrac {α : Type} (r : ℚ) (df : List α) (g : RNG) : List α × RNG :=
  let cnt := Nat.floor ((df.length : ℚ) * r)
  let (idx, g) := pickIndices df.length cnt g
  (idx.filterMap df.get?, g)

/-- `config['data_quality']`: the injection switch and rates. -/
structure DQ where
  inject_issues : Bool
  duplicate_rate : ℚ
  null_rate_optional : ℚ
  future_date_rate : ℚ

/-- The null-injection loop of `inject_data_quality_issues`: for each
nullable column (modelled by its clearing function), null out the column
at `min nNulls (len df)` sampled row indices, provided `0 < nNulls` and
the frame is non-empty. -/
def nullStage {α : Type} (nNulls : Nat) : List (α → α) → List α × RNG → List α × RNG
  | [], p => p
  | f :: fs, (df, g) =>
    if 0 < nNulls ∧ 0 < df.length then
      let (idx, g) := pickIndices df.length (min nNulls df.length) g
      nullStage nNulls fs (applyAt f idx df, g)
    else nullStage nNulls fs (df, g)

/-- The future-date loop of `inject_data_quality_issues`: for each date
column (modelled by its value-setting function), sample row indices, draw
a future date `now + randint(1, 30)` days, and overwrite. -/
def futureStage {α : Type} (nFut : Nat) (now : Int) :
    List (Int → α → α) → List α × RNG → List α × RNG
  | [], p => p
  | f :: fs, (df, g) =>
    if 0 < df.length then
      let (idx, g) := pickIndices df.length (min nFut df.length) g
      let (d, g) := randint 1 30 g
      futureStage nFut now fs (applyAt (f (now + d * 86400)) idx df, g)
    else futureStage nFut now fs (df, g)

/-- `int(n_rows * duplicate_rate)`: how many duplicate rows are appended. -/
def dupCount (dq : DQ) (n : Nat) : Nat := Nat.floor ((n : ℚ) * dq.duplicate_rate)

/-- The duplicate step of `inject_data_quality_issues`: when the count is
positive, append that many rows sampled (with replacement) from `df`. -/
def dupStage {α : Type} (dq : DQ) (df : List α) (g : RNG) : List α × RNG :=
  if 0 < dupCount dq df.length then
    (df ++ ((pickIndices df.length (dupCount dq df.length) g).1).filterMap df.get?,
     (pickIndices df.length (dupCount dq df.length) g).2)
  else (df, g)

/-- `helpers.inject_data_quality_issues`: when enabled, append
`int(n * duplicate_rate)` sampled duplicate rows, then null out sampled
cells of the nullable columns, then overwrite sampled cells of the date
columns with a future date. -/
def inject_data_quality_issues {α : Type} (dq : DQ) (date_columns : List (Int → α → α))
    (nullable_columns : List (α → α)) (now : Int) (df : List α) (g : RNG) :
    List α × RNG :=
  if dq.inject_issues = false then (df, g) else
  let p2 := dupStage dq df g
  let nNulls := Nat.floor ((df.length : ℚ) * dq.null_rate_optional)
  let p3 := nullStage nNulls nullable_columns p2
  let nFut := Nat.floor ((df.length : ℚ) * dq.future_date_rate)
  if 0 < nFut then futureStage nFut now date_columns p3 else p3

/-! ### String literals of the sources -/

def ACTIVE : String := "ACTIVE"
def CLOSED : String := "CLOSED"
def ON_HOLD : String := "ON_HOLD"
def COMPLETED_THERAPY : String := "COMPLETED_THERAPY"
def ABANDONED : String := "ABANDONED"
def LOST_TO_FOLLOWUP : String := "LOST_TO_FOLLOWUP"
def PATIENT_DECLINED : String := "PATIENT_DECLINED"
def TRANSFERRED : String := "TRANSFERRED"
def INQUIRY : String := "INQUIRY"
def ENROLLED : String := "ENROLLED"
def BV_PENDING : String := "BV_PENDING"
def BV_COMPLETE : String := "BV_COMPLETE"
def PA_PENDING : String := "PA_PENDING"
def PA_APPROVED : String := "PA_APPROVED"
def PA_DENIED : String := "PA_DENIED"
def SHIPPED : String := "SHIPPED"
def NOT_MEDICALLY_NECESSARY : String := "NOT_MEDICALLY_NECESSARY"
def MISSING_DOCUMENTATION : String := "MISSING_DOCUMENTATION"
def COVERAGE_ISSUE : String := "COVERAGE_ISSUE"
def CASH_PAY : String := "CASH_PAY"
def COMMERCIAL : String := "COMMERCIAL"
def MEDICARE : String := "MEDICARE"
def PAID : String := "PAID"
def DENIED : String := "DENIED"
def REVERSED : String := "REVERSED"
def PENDING : String := "PENDING"
def PHARMACY : String := "PHARMACY"
def MEDICAL : String := "MEDICAL"
def procedure_codes : List String := ["99213", "99214", "96372", "J1234"]

/-! ### Calendar -/

/-- Civil year and month of a day number counted from 1970-01-01 (the
standard days-to-civil conversion). -/
def civilYM (z0 : Int) : Int × Int :=
  let z := z0 + 719468
  let era := z / 146097
  let doe := z % 146097
  let yoe := (doe - doe / 1460 + doe / 36524 - doe / 146096) / 365
  let y := yoe + era * 400
  let doy := doe - (365 * yoe + yoe / 4 - yoe / 100)
  let mp := (5 * doy + 2) / 153
  let m := mp + (if mp < 10 then 3 else -9)
  (if m ≤ 2 then y + 1 else y, m)

/-- `helpers.format_month_partition`: the `YYYY-MM` partition key of a
timestamp, modelled as the (year, month) pair. -/
def format_month_partition (ts : Int) : Int × Int := civilYM (ts / 86400)

/-- The year of a timestamp (`enrolled_ts.year`). -/
def tsYear (ts : Int) : Int := (format_month_partition ts).1

/-- `helpers.hash_patient_id`: the 16-hex-character SHA-256 digest of the
patient number, modelled by the number itself (see the header). -/
def hash_patient_id (patient_number : Nat) : Nat := patient_number

/-- `helpers.generate_npi`: a random 10-digit provider id. -/
def generate_npi (g : RNG) : Int × RNG := randint 1000000000 9999999999 g

/-- `helpers.generate_us_states_weighted`: a state code drawn from the
population-weighted list of the 50 states. -/
def generate_us_states_weighted (g : RNG) : String × RNG :=
  let top_states := ["CA", "TX", "FL", "NY", "PA", "IL", "OH", "GA", "NC", "MI"]
  let top_weights : List ℚ :=
    [15/100, 12/100, 1/10, 8/100, 6/100, 5/100, 5/100, 4/100, 4/100, 4/100]
  let remaining_states :=
    ["NJ", "VA", "WA", "AZ", "MA", "TN", "IN", "MO", "MD", "WI",
     "CO", "MN", "SC", "AL", "LA", "KY", "OR", "OK", "CT", "UT",
     "IA", "NV", "AR", "MS", "KS", "NM", "NE", "WV", "ID", "HI",
     "NH", "ME", "MT", "RI", "DE", "SD", "ND", "AK", "VT", "WY"]
  let remaining_weights : List ℚ := List.replicate remaining_states.length (27/100/40)
  weighted_choice (top_states ++ remaining_states) (top_weights ++ remaining_weights) "CA" g

/-! ### Configuration -/

/-- One entry of `config['dimensions']['products']`. -/
structure Product where
  product_id : String
  product_name : String
  indication : String
  ndc : String
  weight : ℚ

/-- One entry of `config['dimensions']['payers']`. -/
structure Payer where
  payer_id : String
  payer_name : String
  weight : ℚ

/-- A named, weighted dimension entry (channels, hub vendors, program
types, plan types, prescriber specialties). -/
structure Dim where
  name : String
  weight : ℚ

/-- One entry of `config['timing']['refill_cadence']`. -/
structure RefillOpt where
  days_supply : Nat
  weight : ℚ

/-- `config['scales'][config['active_scale']]`. -/
structure Scale where
  enrollments : Nat
  start_date : Int
  end_date : Int
  years_of_data : Nat

/-! ### Enrollments (`scripts/generators/enrollments.py`) -/

/-- One row of the PSP enrollments table. -/
structure Enrollment where
  /-- `PSP-{year}-{i+1:06d}`, as the (year, number) pair. -/
  enrollment_id : Int × Nat
  patient_id_hash : Nat
  program_id : String
  program_name : String
  program_type : String
  indication : String
  ndc_code : String
  enrolled_ts : Int
  enrolled_month : Int × Int
  inquiry_ts : Option Int
  enrollment_channel : String
  hub_vendor : Option String
  payer_id : Option String
  payer_name : Option String
  plan_type : String
  prescriber_npi : Int
  prescriber_specialty : String
  patient_state : String
  patient_zip3 : Int
  created_at : Int
deriving DecidableEq, Repr

/-- The slice of the YAML configuration the generators read. -/
structure Config where
  random_seed : Nat
  scale : Scale
  claims_per_patient_year : ℚ
  shipments_per_shipped_patient : ℚ
  first_shipment : ℚ
  refill_cadence : List RefillOpt
  channels : List Dim
  hub_vendors : List Dim
  program_types : List Dim
  products : List Product
  payers : List Payer
  plan_types : List Dim
  prescriber_specialties : List Dim
  data_quality : DQ
  /-- `config['data_quality']['nullable_fields']`: external column names,
  modelled by the corresponding field-clearing functions. -/
  enrollment_nullable_fields : List (Enrollment → Enrollment)

/-- Fallback element for product draws (an empty list is never drawn from
in a well-formed configuration). -/
def dProduct : Product := { product_id := "", product_name := "", indication := "", ndc := "", weight := 0 }

/-- Fallback element for payer draws. -/
def dPayer : Payer := { payer_id := "", payer_name := "", weight := 0 }

/-- Fallback element for dimension draws. -/
def dDim : Dim := { name := "", weight := 0 }

/-- The body of the enrollment loop of `generate_enrollments`: one row for
patient number `i`, drawing product, program type, enrollment timestamp,
inquiry offset, plan type, payer (unless cash pay), channel, hub vendor
(90% of rows), specialty, NPI, state and zip, in source order. -/
def enrollmentRow (cfg : Config) (i : Nat) (now : Int) (g : RNG) : Enrollment × RNG :=
  let (product, g) := weighted_choice cfg.products (cfg.products.map (·.weight)) dProduct g
  let (program_type, g) :=
    weighted_choice cfg.program_types (cfg.program_types.map (·.weight)) dDim g
  let (enrolled_ts, g) := random_date_between cfg.scale.start_date cfg.scale.end_date g
  let (inquiry_days_before, g) := randint 0 14 g
  let (u, g) := randUnit g
  let inquiry_ts := if 100 < u then some (enrolled_ts - inquiry_days_before * 86400) else none
  let (plan_type_obj, g) := weighted_choice cfg.plan_types (cfg.plan_types.map (·.weight)) dDim g
  let plan_type := plan_type_obj.name
  let (payer_id, payer_name, g) :=
    if plan_type = CASH_PAY then (none, none, g)
    else
      let (payer, g) := weighted_choice cfg.payers (cfg.payers.map (·.weight)) dPayer g
      (some payer.payer_id, some payer.payer_name, g)
  let (channel, g) := weighted_choice cfg.channels (cfg.channels.map (·.weight)) dDim g
  let (u2, g) := randUnit g
  let (hub_vendor, g) :=
    if u2 < 900 then
      let (hv, g) := weighted_choice cfg.hub_vendors (cfg.hub_vendors.map (·.weight)) dDim g
      (some hv.name, g)
    else (none, g)
  let (specialty, g) :=
    weighted_choice cfg.prescriber_specialties (cfg.prescriber_specialties.map (·.weight)) dDim g
  let (npi, g) := generate_npi g
  let (patient_state, g) := generate_us_states_weighted g
  let (zip3, g) := randint 100 999 g
  ({ enrollment_id := (tsYear enrolled_ts, i + 1)
     patient_id_hash := hash_patient_id i
     program_id := product.product_id
     program_name := product.product_name
     program_type := program_type.name
     indication := product.indication
     ndc_code := product.ndc
     enrolled_ts := enrolled_ts
     enrolled_month := format_month_partition enrolled_ts
     inquiry_ts := inquiry_ts
     enrollment_channel := channel.name
     hub_vendor := hub_vendor
     payer_id := payer_id
     payer_name := payer_name
     plan_type := plan_type
     prescriber_npi := npi
     prescriber_specialty := specialty.name
     patient_state := patient_state
     patient_zip3 := zip3
     created_at := now }, g)

/-- The enrollment loop: rows for patient numbers `lo, lo+1, …` while
`cnt` rows remain (`for i in range(n_enrollments)` with the built list
appended in order). -/
def enrollmentRows (cfg : Config) (now : Int) : Nat → Nat → RNG → List Enrollment × RNG
  | _, 0, g => ([], g)
  | lo, Nat.succ cnt, g =>
    let (e, g) := enrollmentRow cfg lo now g
    let (rest, g) := enrollmentRows cfg now (lo + 1) cnt g
    (e :: rest, g)

/-- `generate_enrollments`: the enrollment loop followed by data-quality
injection on the date columns `enrolled_ts`, `inquiry_ts` and the
configured nullable columns. -/
def generate_enrollments (cfg : Config) (now : Int) (g : RNG) : List Enrollment × RNG :=
  let (df, g) := enrollmentRows cfg now 0 cfg.scale.enrollments g
  inject_data_quality_issues cfg.data_quality
    [fun t e => { e with enrolled_ts := t }, fun t e => { e with inquiry_ts := some t }]
    cfg.enrollment_nullable_fields now df g

/-! ### Cases (`scripts/generators/cases.py`) -/

/-- One row of the PSP cases table. -/
structure Case where
  /-- `CASE-{year}-{number}` built from the enrollment id's parts. -/
  case_id : Int × Nat
  enrollment_id : Int × Nat
  patient_id_hash : Nat
  case_opened_ts : Int
  opened_month : Int × Int
  case_manager_id : Int
  current_status : String
  closed_ts : Option Int
  closure_reason : Option String
  created_at : Int
deriving DecidableEq, Repr

/-- The body of the case loop of `generate_cases`: the case opens within
±12 hours of enrollment; the status is a weighted draw over ACTIVE,
CLOSED, ON_HOLD; a CLOSED case gets a closing timestamp 30–180 days later
and a weighted closure reason; the manager is one of 20. -/
def caseRow (enrollment : Enrollment) (now : Int) (g : RNG) : Case × RNG :=
  let (h, g) := randint (-12) 12 g
  let case_opened_ts := enrollment.enrolled_ts + h * 3600
  let (current_status, g) :=
    weighted_choice [ACTIVE, CLOSED, ON_HOLD] [6/10, 35/100, 5/100] ACTIVE g
  let (closed_ts, closure_reason, g) :=
    if current_status = CLOSED then
      let (days_to_close, g) := randint 30 180 g
      let (reason, g) :=
        weighted_choice [COMPLETED_THERAPY, ABANDONED, LOST_TO_FOLLOWUP, PATIENT_DECLINED,
          TRANSFERRED] [5/10, 25/100, 15/100, 7/100, 3/100] COMPLETED_THERAPY g
      (some (case_opened_ts + days_to_close * 86400), some reason, g)
    else (none, none, g)
  let (cm, g) := randint 1 20 g
  ({ case_id := enrollment.enrollment_id
     enrollment_id := enrollment.enrollment_id
     patient_id_hash := enrollment.patient_id_hash
     case_opened_ts := case_opened_ts
     opened_month := format_month_partition case_opened_ts
     case_manager_id := cm
     current_status := current_status
     closed_ts := closed_ts
     closure_reason := closure_reason
     created_at := now }, g)

/-- The case loop: one case per enrollment row, in order. -/
def caseRows (now : Int) : List Enrollment → RNG → List Case × RNG
  | [], g => ([], g)
  | e :: es, g =>
    let (c, g) := caseRow e now g
    let (rest, g) := caseRows now es g
    (c :: rest, g)

/-- `generate_cases`: the case loop followed by data-quality injection on
the date columns `case_opened_ts`, `closed_ts` and the nullable columns
`closed_ts`, `closure_reason`. -/
def generate_cases (enrollments_df : List Enrollment) (cfg : Config) (now : Int) (g : RNG) :
    List Case × RNG :=
  let (df, g) := caseRows now enrollments_df g
  inject_data_quality_issues cfg.data_quality
    [fun t c => { c with case_opened_ts := t }, fun t c => { c with closed_ts := some t }]
    [fun c => { c with closed_ts := none }, fun c => { c with closure_reason := none }]
    now df g

/-! ### Status history (`scripts/generators/status_history.py`) -/

/-- One row of the PSP status-history table. -/
structure StatusRecord where
  /-- `STAT-{year}-{number}-{i+1:02d}` built from the case id's parts. -/
  status_id : Int × Nat × Nat
  case_id : Int × Nat
  enrollment_id : Int × Nat
  status_start_ts : Int
  status_start_month : Int × Int
  status_end_ts : Option Int
  status : String
  status_reason : Option String
  created_at : Int
deriving DecidableEq, Repr

/-- The eight-step successful status path, INQUIRY through ACTIVE. -/
def successful_path : List String :=
  [INQUIRY, ENROLLED, BV_PENDING, BV_COMPLETE, PA_PENDING, PA_APPROVED, SHIPPED, ACTIVE]

/-- The path abandoned at benefits verification. -/
def abandoned_at_bv : List String := [INQUIRY, ENROLLED, BV_PENDING, ABANDONED]

/-- The path abandoned after a prior-authorization denial. -/
def abandoned_at_pa : List String :=
  [INQUIRY, ENROLLED, BV_PENDING, BV_COMPLETE, PA_PENDING, PA_DENIED, ABANDONED]

/-- The path abandoned right after enrollment. -/
def abandoned_early : List String := [INQUIRY, ENROLLED, ABANDONED]

/-- The path chosen for a case in `generate_status_history`: the
successful path for ACTIVE; for CLOSED either the successful path plus
CLOSED (therapy completed) or a randomly chosen abandoned path; a random
3–6 step prefix of the successful path otherwise (ON_HOLD). -/
def choosePath (c : Case) (g : RNG) : List String × RNG :=
  if c.current_status = ACTIVE then (successful_path, g)
  else if c.current_status = CLOSED then
    if c.closure_reason = some COMPLETED_THERAPY then (successful_path ++ [CLOSED], g)
    else choice [abandoned_early, abandoned_at_bv, abandoned_at_pa] abandoned_early g
  else
    let (k, g) := randint 3 6 g
    (successful_path.take k.toNat, g)

/-- The inter-status delay in days: 1–10 before a completion status, 3–14
before SHIPPED, 1–5 otherwise. -/
def statusDelay (status : String) (g : RNG) : Int × RNG :=
  if status = BV_COMPLETE ∨ status = PA_APPROVED then randint 1 10 g
  else if status = SHIPPED then randint 3 14 g
  else randint 1 5 g

/-- The per-status loop of `generate_status_history` over a chosen path:
record `i` starts at the running timestamp (plus a delay when `i ≠ 0`),
ends 1–3 days later unless it is the last record (whose end is null), and
carries a reason only for PA_DENIED (a random denial reason) or ABANDONED
(the case's closure reason); the running timestamp advances to the
record's end when that is set. -/
def statusRecords (c : Case) (now : Int) :
    List String → Nat → Int → RNG → List StatusRecord × RNG
  | [], _, _, g => ([], g)
  | status :: rest, i, current_ts, g =>
    let (status_start_ts, g) :=
      if i = 0 then (current_ts, g)
      else
        let (d, g) := statusDelay status g
        (current_ts + d * 86400, g)
    let (status_end_ts, g) :=
      if rest = [] then ((none : Option Int), g)
      else
        let (d, g) := randint 1 3 g
        (some (status_start_ts + d * 86400), g)
    let (status_reason, g) :=
      if status = PA_DENIED then
        let (r, g) :=
          choice [NOT_MEDICALLY_NECESSARY, MISSING_DOCUMENTATION, COVERAGE_ISSUE]
            NOT_MEDICALLY_NECESSARY g
        (some r, g)
      else if status = ABANDONED then (c.closure_reason, g)
      else ((none : Option String), g)
    let r0 : StatusRecord :=
      { status_id := (c.case_id.1, c.case_id.2, i + 1)
        case_id := c.case_id
        enrollment_id := c.enrollment_id
        status_start_ts := status_start_ts
        status_start_month := format_month_partition status_start_ts
        status_end_ts := status_end_ts
        status := status
        status_reason := status_reason
        created_at := now }
    let next_ts := match status_end_ts with | some t => t | none => current_ts
    let (rest_recs, g) := statusRecords c now rest (i + 1) next_ts g
    (r0 :: rest_recs, g)

/-- The history of one case: choose the path, start the clock at the
inquiry timestamp (falling back to the enrollment timestamp), and emit
one record per path status. -/
def caseHistory (c : Case) (inquiry_ts : Option Int) (enrolled_ts : Int) (now : Int)
    (g : RNG) : List StatusRecord × RNG :=
  let (path, g) := choosePath c g
  let start := match inquiry_ts with | some t => t | none => enrolled_ts
  statusRecords c now path 0 start g

/-- The rows the left merge contributes for one case: one block of history
per enrollment row matching the case's enrollment id. -/
def caseHistoryMatches (c : Case) (now : Int) : List Enrollment → RNG → List StatusRecord × RNG
  | [], g => ([], g)
  | e :: es, g =>
    let (recs, g) := caseHistory c e.inquiry_ts e.enrolled_ts now g
    let (rest, g) := caseHistoryMatches c now es g
    (recs ++ rest, g)

/-- The case loop of `generate_status_history` over the merge of cases
with enrollments: an unmatched case keeps one row whose timestamps are
missing (modelled by a null inquiry and epoch enrollment). -/
def historyRows (enrollments_df : List Enrollment) (now : Int) :
    List Case → RNG → List StatusRecord × RNG
  | [], g => ([], g)
  | c :: cs, g =>
    let ms := enrollments_df.filter (fun e => e.enrollment_id = c.enrollment_id)
    let (recs, g) :=
      if ms = [] then caseHistory c none 0 now g
      else caseHistoryMatches c now ms g
    let (rest, g) := historyRows enrollments_df now cs g
    (recs ++ rest, g)

/-- `generate_status_history`: the merged case loop followed by
data-quality injection on the date columns `status_start_ts`,
`status_end_ts` and the nullable columns `status_end_ts`, `status_reason`. -/
def generate_status_history (cases_df : List Case) (enrollments_df : List Enrollment)
    (cfg : Config) (now : Int) (g : RNG) : List StatusRecord × RNG :=
  let (df, g) := historyRows enrollments_df now cases_df g
  inject_data_quality_issues cfg.data_quality
    [fun t r => { r with status_start_ts := t }, fun t r => { r with status_end_ts := some t }]
    [fun r => { r with status_end_ts := none }, fun r => { r with status_reason := none }]
    now df g

/-! ### Shipments (`scripts/generators/shipments.py`) -/

/-- One row of the specialty-pharmacy shipments table.  Dates
(`fill_date`, `ship_date`) are day numbers, as in the source's `.date()`. -/
structure Shipment where
  shipment_id : Nat
  enrollment_id : Int × Nat
  patient_id_hash : Nat
  /-- `RX-{enrollment number}-{refill:03d}`. -/
  prescription_id : Nat × Nat
  fill_date : Int
  ship_date : Int
  shipment_month : Int × Int
  ndc_code : String
  product_name : String
  days_supply : Nat
  quantity : Nat
  refill_number : Nat
  pharmacy_id : Int
  claim_status : String
  copay_amount : Option Int
  created_at : Int
deriving DecidableEq, Repr

/-- The copay draw for one refill: paid commercial and Medicare claims
draw from their amount lists, anything else pays 0 without a draw. -/
def copayDraw (e : Enrollment) (claim_status : String) (g : RNG) : Int × RNG :=
  if claim_status = PAID then
    if e.plan_type = COMMERCIAL then choice [0, 10, 25, 50, 100, 150] 0 g
    else if e.plan_type = MEDICARE then choice [0, 5, 15, 30, 75] 0 g
    else ((0 : Int), g)
  else ((0 : Int), g)

/-- One iteration of the refill loop of `generate_shipments`: a weighted
days-supply, a fill date 0–2 days before shipping, a weighted claim
status, the copay, a pharmacy, the row (under the incremented counter),
and the next shipping date `days_supply − 3 … days_supply + 5` days
later.  Returns the row, the next shipping date and the stream. -/
def shipmentStep (cfg : Config) (e : Enrollment) (now : Int) (refill_num counter : Nat)
    (current_ship : Int) (g : RNG) : Shipment × Int × RNG :=
  let (days_supply, g) :=
    weighted_choice (cfg.refill_cadence.map (·.days_supply))
      (cfg.refill_cadence.map (·.weight)) 30 g
  let (fd, g) := randint 0 2 g
  let fill_date := current_ship - fd * 86400
  let quantity := if days_supply = 90 then 3 else 1
  let (claim_status, g) := weighted_choice [PAID, DENIED, REVERSED] [9/10, 8/100, 2/100] PAID g
  let (copay, g) := copayDraw e claim_status g
  let (pharmacy, g) := randint 1 50 g
  let s : Shipment :=
    { shipment_id := counter + 1
      enrollment_id := e.enrollment_id
      patient_id_hash := e.patient_id_hash
      prescription_id := (e.enrollment_id.2, refill_num)
      fill_date := fill_date / 86400
      ship_date := current_ship / 86400
      shipment_month := format_month_partition current_ship
      ndc_code := e.ndc_code
      product_name := e.program_name
      days_supply := days_supply
      quantity := quantity
      refill_number := refill_num
      pharmacy_id := pharmacy
      claim_status := claim_status
      copay_amount := some copay
      created_at := now }
  let (rv, g) := randint (-3) 5 g
  (s, current_ship + ((days_supply : Int) + rv) * 86400, g)

/-- The refill loop of `generate_shipments` for one patient: run
`shipmentStep` per refill; the loop stops after `n_shipments` refills or
once the next shipping date passes the scale's end date (the break comes
after the row is appended).  Returns the rows, the global shipment
counter and the stream. -/
def refillLoop (cfg : Config) (e : Enrollment) (now : Int) :
    Nat → Nat → Nat → Int → RNG → List Shipment × Nat × RNG
  | 0, _, counter, _, g => ([], counter, g)
  | Nat.succ rem, refill_num, counter, current_ship, g =>
    let step := shipmentStep cfg e now refill_num counter current_ship g
    if cfg.scale.end_date < step.2.1 then ([step.1], counter + 1, step.2.2)
    else
      let r := refillLoop cfg e now rem (refill_num + 1) (counter + 1) step.2.1 step.2.2
      (step.1 :: r.1, r.2)

/-- One sampled patient of `generate_shipments`: the shipment count is
`avg · uniform(0.7, 1.3)` truncated (at least 1), the first shipment is
5–15 days after enrollment, then the refill loop runs. -/
def patientShipments (cfg : Config) (e : Enrollment) (now : Int) (counter : Nat) (g : RNG) :
    List Shipment × Nat × RNG :=
  let (u, g) := uniformPm g
  let n_shipments :=
    max 1 (Nat.floor (cfg.shipments_per_shipped_patient * (u : ℚ) / 1000))
  let (fsd, g) := randint 5 15 g
  let first_ship_date := e.enrolled_ts + fsd * 86400
  refillLoop cfg e now n_shipments 0 counter first_ship_date g

/-- The patient loop of `generate_shipments` over the sampled
enrollments, threading the global shipment counter. -/
def shipmentRows (cfg : Config) (now : Int) :
    List Enrollment → Nat → RNG → List Shipment × Nat × RNG
  | [], counter, g => ([], counter, g)
  | e :: es, counter, g =>
    let (ss, counter, g) := patientShipments cfg e now counter g
    let (rest, counter, g) := shipmentRows cfg now es counter g
    (ss ++ rest, counter, g)

/-- `generate_shipments`: sample a `first_shipment` fraction of the
enrollments, run the patient loop, then inject data-quality issues on the
date columns `fill_date`, `ship_date` and the nullable column
`copay_amount`. -/
def generate_shipments (enrollments_df : List Enrollment) (cfg : Config) (now : Int)
    (g : RNG) : List Shipment × RNG :=
  let (shipped_enrollments, g) := sampleFrac cfg.first_shipment enrollments_df g
  let (df, _, g) := shipmentRows cfg now shipped_enrollments 0 g
  inject_data_quality_issues cfg.data_quality
    [fun t s => { s with fill_date := t / 86400 }, fun t s => { s with ship_date := t / 86400 }]
    [fun s => { s with copay_amount := none }]
    now df g

/-! ### Claims (`scripts/generators/claims.py`) -/

/-- One row of the claims table (`claim_date` is a day number). -/
structure Claim where
  claim_id : Nat
  enrollment_id : Int × Nat
  patient_id_hash : Nat
  claim_date : Int
  claim_month : Int × Int
  claim_type : String
  procedure_code : Option String
  ndc_code : Option String
  payer_id : Option String
  provider_npi : Int
  claim_status : String
  paid_amount : Option ℚ
  patient_paid : Option ℚ
  created_at : Int
deriving DecidableEq, Repr

/-- `int(q · n)` for a non-negative config rate `q`: the floor computed
on the rational's numerator and denominator, `⌊(q.num · n) / q.den⌋`. -/
def intFloorMul (q : ℚ) (n : Nat) : Nat := ((q.num * n) / (q.den : Int)).toNat

/-- The patients claims are generated for: the enrollments whose id
appears among the shipments (`isin`), in enrollment order. -/
def shipped_patients (enrollments_df : List Enrollment) (shipments_df : List Shipment) :
    List Enrollment :=
  enrollments_df.filter (fun e => shipments_df.any (fun s => s.enrollment_id = e.enrollment_id))

/-- The groupby-min of a patient's shipping dates (day numbers); `0` when
the patient has none. -/
def firstShipDay (shipments_df : List Shipment) (eid : Int × Nat) : Int :=
  match (shipments_df.filter (fun s => s.enrollment_id = eid)).map (·.ship_date) with
  | [] => 0
  | d :: ds => ds.foldl min d

/-- The groupby-max of a patient's shipping dates. -/
def lastShipDay (shipments_df : List Shipment) (eid : Int × Nat) : Int :=
  match (shipments_df.filter (fun s => s.enrollment_id = eid)).map (·.ship_date) with
  | [] => 0
  | d :: ds => ds.foldl max d

/-- `first_ship − timedelta(days=30)` as a timestamp: the lower end of the
buffered claim-date range. -/
def claimRangeStart (shipments_df : List Shipment) (eid : Int × Nat) : Int :=
  firstShipDay shipments_df eid * 86400 - 30 * 86400

/-- `(end_range − start_range).total_seconds()`: the width of the buffered
claim-date range. -/
def claimRangeSpan (shipments_df : List Shipment) (eid : Int × Nat) : Int :=
  (lastShipDay shipments_df eid * 86400 + 30 * 86400) - claimRangeStart shipments_df eid

/-- One pre-column claim row: the id is the running counter, the date
columns come from the raw timestamp, product/payer/prescriber come from
the enrollment; the vectorised columns get their placeholder values. -/
def claimBase (e : Enrollment) (cid : Nat) (raw : Int) : Claim :=
  { claim_id := cid
    enrollment_id := e.enrollment_id
    patient_id_hash := e.patient_id_hash
    claim_date := raw / 86400
    claim_month := format_month_partition raw
    claim_type := ""
    procedure_code := none
    ndc_code := some e.ndc_code
    payer_id := e.payer_id
    provider_npi := e.prescriber_npi
    claim_status := ""
    paid_amount := none
    patient_paid := none
    created_at := 0 }

/-- Number a patient's raw claim offsets into rows, continuing the global
claim counter. -/
def numberRows (e : Enrollment) (start_range : Int) : Nat → List Int → List Claim
  | _, [] => []
  | counter, off :: rest =>
    claimBase e (counter + 1) (start_range + off) :: numberRows e start_range (counter + 1) rest

/-- The per-patient date loop of `generate_claims`: for each shipped
patient draw its `n_claims` uniform offsets into the ±30-day buffered
shipment range and emit the numbered rows. -/
def claimsPatientLoop (shipments_df : List Shipment) :
    List (Enrollment × Nat) → Nat → RNG → List Claim × Nat × RNG
  | [], counter, g => ([], counter, g)
  | (e, n_claims) :: rest, counter, g =>
    let (offs, g) := draws (uniform0 (claimRangeSpan shipments_df e.enrollment_id)) n_claims g
    let rows := numberRows e (claimRangeStart shipments_df e.enrollment_id) counter offs
    let (more, counter', g) := claimsPatientLoop shipments_df rest (counter + offs.length) g
    (rows ++ more, counter', g)

/-- A vectorised column assignment that draws one value per row and
applies it on the rows satisfying `pred` (as `np.where` over a full-size
draw does). -/
def stageDraw {β : Type} (pred : Claim → Bool) (upd : β → Claim → Claim)
    (draw : RNG → β × RNG) : List Claim → RNG → List Claim × RNG
  | [], g => ([], g)
  | c :: cs, g =>
    let (x, g) := draw g
    let c' := if pred c then upd x c else c
    let (rest, g) := stageDraw pred upd draw cs g
    (c' :: rest, g)

/-- A vectorised masked assignment that draws one value per row of the
mask only (as `df.loc[mask, col] = np.random.uniform(…, size=mask.sum())`
does). -/
def stageDrawWhere {β : Type} (pred : Claim → Bool) (upd : β → Claim → Claim)
    (draw : RNG → β × RNG) : List Claim → RNG → List Claim × RNG
  | [], g => ([], g)
  | c :: cs, g =>
    if pred c then
      let (x, g) := draw g
      let (rest, g) := stageDrawWhere pred upd draw cs g
      (upd x c :: rest, g)
    else
      let (rest, g) := stageDrawWhere pred upd draw cs g
      (c :: rest, g)

/-- Rows with a paid pharmacy claim. -/
def paidPharmacy (c : Claim) : Bool := c.claim_status == PAID && c.claim_type == PHARMACY

/-- Rows with a paid medical claim. -/
def paidMedical (c : Claim) : Bool := c.claim_status == PAID && c.claim_type == MEDICAL

/-- `generate_claims`: filter to shipped patients, draw the per-patient
claim counts `randint(0.7·base, 1.3·base + 1)` up front, run the date
loop, then the vectorised columns in source order — claim type, procedure
codes for medical claims, NDC cleared on medical claims, claim status,
amounts for the four paid masks, zero amounts nulled, `created_at` — and
finally data-quality injection on `claim_date` and the nullable columns. -/
def generate_claims (enrollments_df : List Enrollment) (shipments_df : List Shipment)
    (cfg : Config) (now : Int) (g : RNG) : List Claim × RNG :=
  let shipped := shipped_patients enrollments_df shipments_df
  let base_claims : Nat := intFloorMul cfg.claims_per_patient_year cfg.scale.years_of_data
  let lo := base_claims * 7 / 10
  let hi := base_claims * 13 / 10 + 1
  let (sizes, g) :=
    draws (fun g => let (v, g') := g.next; (lo + v % (hi - lo), g')) shipped.length g
  let (rows, _, g) := claimsPatientLoop shipments_df (shipped.zip sizes) 0 g
  let (rows, g) := stageDraw (fun _ => true) (fun t c => { c with claim_type := t })
    (weighted_choice [PHARMACY, MEDICAL] [6/10, 4/10] PHARMACY) rows g
  let (rows, g) := stageDraw (fun c => c.claim_type == MEDICAL)
    (fun t c => { c with procedure_code := some t })
    (choice procedure_codes "99213") rows g
  let rows := rows.map (fun c =>
    if c.claim_type == MEDICAL then { c with ndc_code := none } else c)
  let (rows, g) := stageDraw (fun _ => true) (fun t c => { c with claim_status := t })
    (weighted_choice [PAID, DENIED, PENDING] [85/100, 1/10, 5/100] PAID) rows g
  let rows := rows.map (fun c => { c with paid_amount := some 0, patient_paid := some 0 })
  let (rows, g) := stageDrawWhere paidPharmacy (fun q c => { c with paid_amount := some q })
    (uniformQ 5000 15000) rows g
  let (rows, g) := stageDrawWhere paidPharmacy (fun q c => { c with patient_paid := some q })
    (uniformQ 0 500) rows g
  let (rows, g) := stageDrawWhere paidMedical (fun q c => { c with paid_amount := some q })
    (uniformQ 100 500) rows g
  let (rows, g) := stageDrawWhere paidMedical (fun q c => { c with patient_paid := some q })
    (uniformQ 0 50) rows g
  let rows := rows.map (fun c =>
    if c.paid_amount == some 0 then { c with paid_amount := none } else c)
  let rows := rows.map (fun c =>
    if c.patient_paid == some 0 then { c with patient_paid := none } else c)
  let rows := rows.map (fun c => { c with created_at := now })
  inject_data_quality_issues cfg.data_quality
    [fun t c => { c with claim_date := t / 86400 }]
    [fun c => { c with procedure_code := none }, fun c => { c with ndc_code := none },
     fun c => { c with paid_amount := none }, fun c => { c with patient_paid := none }]
    now rows g

/-! ### Bronze ingestion (`pipelines/bronze/ingest_to_bronze.py`) -/

/-- A cell of a stored table: a string or a timestamp. -/
inductive Cell where
  | str (s : String)
  | ts (t : Int)
deriving DecidableEq, Repr

/-- A stored table: column names and rows of cells. -/
structure DF where
  cols : List String
  rows : List (List Cell)
deriving DecidableEq, Repr

/-- The file store: parquet paths mapped to tables (a write prepends, a
read finds the most recent write). -/
def fsRead (fs : List (String × DF)) (p : String) : Option DF :=
  match fs with
  | [] => none
  | (q, d) :: t => if q = p then some d else fsRead t p

/-- The raw path `data/raw_samples/{source}.parquet`. -/
def rawPath (source_name : String) : String :=
  "data/raw_samples/" ++ source_name ++ ".parquet"

/-- The bronze path `data/bronze/{source}.parquet`. -/
def bronzePath (source_name : String) : String :=
  "data/bronze/" ++ source_name ++ ".parquet"

/-- The audit column `_bronze_loaded_at`. -/
def bronzeLoadedAtCol : String := "_bronze_loaded_at"

/-- The audit column `_bronze_source`. -/
def bronzeSourceCol : String := "_bronze_source"

/-- `ingest_source_to_bronze`: return unchanged (with no verdict) when the
source file is missing; otherwise read the source, append the two audit
columns — the load instant and the source file name — write the result to
the bronze path, re-read it and report whether the re-read row count
equals the source row count. -/
def ingest_source_to_bronze (fs : List (String × DF)) (source_name : String) (now : Int) :
    List (String × DF) × Option Bool :=
  match fsRead fs (rawPath source_name) with
  | none => (fs, none)
  | some df =>
    let row_count := df.rows.length
    let df' : DF :=
      { cols := df.cols ++ [bronzeLoadedAtCol, bronzeSourceCol]
        rows := df.rows.map
          (fun r => r ++ [Cell.ts now, Cell.str (source_name ++ ".parquet")]) }
    let fs' := (bronzePath source_name, df') :: fs
    match fsRead fs' (bronzePath source_name) with
    | none => (fs', some false)
    | some verify_df => (fs', some (verify_df.rows.length == row_count))

/-! ### Basic lemmas about the random primitives -/

theorem randint_bounds (a b : Int) (g : RNG) (hab : a ≤ b) :
    a ≤ (randint a b g).1 ∧ (randint a b g).1 ≤ b := by
  have hpos : (0 : Int) < b - a + 1 := by omega
  have h1 := Int.emod_nonneg ((g.next.1 : Int)) (by omega : b - a + 1 ≠ 0)
  have h2 := Int.emod_lt_of_pos ((g.next.1 : Int)) hpos
  simp only [randint]
  omega

theorem choiceIdx_lt (n : Nat) (g : RNG) (hn : 0 < n) : (choiceIdx n g).1 < n := by
  simpa [choiceIdx] using Nat.mod_lt _ hn

theorem choice_mem {α : Type} (l : List α) (d : α) (g : RNG) (hl : l ≠ []) :
    (choice l d g).1 ∈ l := by
  have hlen : 0 < l.length := List.length_pos.mpr hl
  have hi : (choiceIdx l.length g).1 < l.length := choiceIdx_lt _ _ hlen
  simp only [choice]
  rw [List.getD_eq_getElem l d hi]
  exact List.getElem_mem hi

theorem weighted_choice_mem {α : Type} (l : List α) (w : List ℚ) (d : α) (g : RNG)
    (hl : l ≠ []) : (weighted_choice l w d g).1 ∈ l :=
  choice_mem l d g hl

theorem uniform0_bounds (d : Int) (g : RNG) (hd : 0 < d) :
    0 ≤ (uniform0 d g).1 ∧ (uniform0 d g).1 < d := by
  have h1 := Int.emod_nonneg ((g.next.1 : Int)) (by omega : d ≠ 0)
  have h2 := Int.emod_lt_of_pos ((g.next.1 : Int)) hd
  simp only [uniform0]
  omega

theorem draws_succ {α : Type} (f : RNG → α × RNG) (m : Nat) (g : RNG) :
    draws f (m + 1) g = ((f g).1 :: (draws f m (f g).2).1, (draws f m (f g).2).2) := rfl

theorem draws_length {α : Type} (f : RNG → α × RNG) :
    ∀ (n : Nat) (g : RNG), ((draws f n g).1).length = n := by
  intro n
  induction n with
  | zero => intro g; rfl
  | succ m ih => intro g; rw [draws_succ]; simp [ih]

theorem draws_forall {α : Type} (f : RNG → α × RNG) (P : α → Prop)
    (hf : ∀ g, P (f g).1) : ∀ (n : Nat) (g : RNG), ∀ x ∈ (draws f n g).1, P x := by
  intro n
  induction n with
  | zero => intro g x hx; simp [draws] at hx
  | succ m ih =>
    intro g x hx
    rw [draws_succ] at hx
    rcases List.mem_cons.mp hx with hx | hx
    · exact hx ▸ hf g
    · exact ih _ x hx

theorem pickIndices_lt (n cnt : Nat) (g : RNG) (hn : 0 < n) :
    ∀ i ∈ (pickIndices n cnt g).1, i < n :=
  draws_forall _ _ (fun g' => choiceIdx_lt n g' hn) cnt g

theorem mem_filterMap_get? {α : Type} (df : List α) :
    ∀ (idx : List Nat), ∀ r ∈ idx.filterMap df.get?, r ∈ df := by
  intro idx
  induction idx with
  | nil => intro r hr; simp at hr
  | cons i is ih =>
    intro r hr
    simp only [List.filterMap_cons] at hr
    cases h : df.get? i with
    | none => rw [h] at hr; exact ih r hr
    | some a =>
      rw [h] at hr
      rcases List.mem_cons.mp hr with hr | hr
      · exact hr ▸ List.get?_mem h
      · exact ih r hr

theorem set_get?_self {α : Type} :
    ∀ (l : List α) (i : Nat) (a : α), l.get? i = some a → l.set i a = l := by
  intro l
  induction l with
  | nil => intro i a h; simp at h
  | cons x xs ih =>
    intro i a h
    cases i with
    | zero => simp_all
    | succ j =>
      simp only [List.get?_cons_succ] at h
      simp [List.set, ih j a h]

theorem applyAt_length {α : Type} (f : α → α) :
    ∀ (idx : List Nat) (df : List α), (applyAt f idx df).length = df.length := by
  intro idx
  induction idx with
  | nil => intro df; rfl
  | cons i is ih =>
    intro df
    simp only [applyAt]
    cases h : df.get? i with
    | none => exact ih df
    | some r => rw [ih]; exact List.length_set df i (f r)

theorem applyAt_map {α β : Type} (f : α → α) (p : α → β) (hp : ∀ a, p (f a) = p a) :
    ∀ (idx : List Nat) (df : List α), (applyAt f idx df).map p = df.map p := by
  intro idx
  induction idx with
  | nil => intro df; rfl
  | cons i is ih =>
    intro df
    simp only [applyAt]
    cases h : df.get? i with
    | none => exact ih df
    | some r =>
      rw [ih, List.map_set, hp r]
      have hm : (df.map p).get? i = some (p r) := by
        rw [List.get?_map, h]; rfl
      exact set_get?_self _ _ _ hm

theorem nullStage_map {α β : Type} (nNulls : Nat) (p : α → β) :
    ∀ (fs : List (α → α)), (∀ f ∈ fs, ∀ a, p (f a) = p a) →
      ∀ (q : List α × RNG), ((nullStage nNulls fs q).1).map p = (q.1).map p := by
  intro fs
  induction fs with
  | nil => intro _ q; rfl
  | cons f fs ih =>
    intro hfs q
    obtain ⟨df, g⟩ := q
    have hf : ∀ a, p (f a) = p a := hfs f (by simp)
    have hfs' : ∀ f' ∈ fs, ∀ a, p (f' a) = p a := fun f' hf' => hfs f' (by simp [hf'])
    simp only [nullStage]
    split
    · rw [ih hfs', applyAt_map f p hf]
    · exact ih hfs' (df, g)

theorem nullStage_length {α : Type} (nNulls : Nat) :
    ∀ (fs : List (α → α)) (q : List α × RNG),
      ((nullStage nNulls fs q).1).length = (q.1).length := by
  intro fs
  induction fs with
  | nil => intro q; rfl
  | cons f fs ih =>
    intro q
    obtain ⟨df, g⟩ := q
    simp only [nullStage]
    split
    · rw [ih]; exact applyAt_length _ _ _
    · exact ih (df, g)

theorem futureStage_map {α β : Type} (nFut : Nat) (now : Int) (p : α → β) :
    ∀ (fs : List (Int → α → α)), (∀ f ∈ fs, ∀ t a, p (f t a) = p a) →
      ∀ (q : List α × RNG), ((futureStage nFut now fs q).1).map p = (q.1).map p := by
  intro fs
  induction fs with
  | nil => intro _ q; rfl
  | cons f fs ih =>
    intro hfs q
    obtain ⟨df, g⟩ := q
    have hf : ∀ t a, p (f t a) = p a := hfs f (by simp)
    have hfs' : ∀ f' ∈ fs, ∀ t a, p (f' t a) = p a := fun f' hf' => hfs f' (by simp [hf'])
    simp only [futureStage]
    split
    · rw [ih hfs', applyAt_map _ p (hf _)]
    · exact ih hfs' (df, g)

theorem futureStage_length {α : Type} (nFut : Nat) (now : Int) :
    ∀ (fs : List (Int → α → α)) (q : List α × RNG),
      ((futureStage nFut now fs q).1).length = (q.1).length := by
  intro fs
  induction fs with
  | nil => intro q; rfl
  | cons f fs ih =>
    intro q
    obtain ⟨df, g⟩ := q
    simp only [futureStage]
    split
    · rw [ih]; exact applyAt_length _ _ _
    · exact ih (df, g)

theorem filterMap_get?_length {α : Type} (df : List α) :
    ∀ (idx : List Nat), (∀ i ∈ idx, i < df.length) →
      (idx.filterMap df.get?).length = idx.length := by
  intro idx
  induction idx with
  | nil => intro _; rfl
  | cons i is ih =>
    intro h
    have hi : i < df.length := h i (by simp)
    have ha : df.get? i = some (df.get ⟨i, hi⟩) := List.get?_eq_get hi
    simp only [List.filterMap_cons, ha]
    rw [List.length_cons, ih (fun j hj => h j (by simp [hj]))]
    rfl

theorem dupStage_sub {α : Type} (dq : DQ) (df : List α) (g : RNG) :
    ∀ r ∈ (dupStage dq df g).1, r ∈ df := by
  intro r hr
  simp only [dupStage] at hr
  split at hr
  · rcases List.mem_append.mp hr with h | h
    · exact h
    · exact mem_filterMap_get? df _ r h
  · exact hr

theorem dupStage_length {α : Type} (dq : DQ) (df : List α) (g : RNG) :
    ((dupStage dq df g).1).length = df.length + dupCount dq df.length := by
  simp only [dupStage]
  split
  · next hpos =>
    have hn : 0 < df.length := by
      rcases Nat.eq_zero_or_pos df.length with h0 | h0
      · exfalso
        rw [h0] at hpos
        simp [dupCount] at hpos
      · exact h0
    rw [List.length_append, filterMap_get?_length df _ (pickIndices_lt _ _ _ hn)]
    simp [pickIndices, draws_length]
  · next hpos =>
    have : dupCount dq df.length = 0 := by omega
    simp [this]

theorem inject_off {α : Type} (dq : DQ) (dcols : List (Int → α → α))
    (ncols : List (α → α)) (now : Int) (df : List α) (g : RNG)
    (h : dq.inject_issues = false) :
    inject_data_quality_issues dq dcols ncols now df g = (df, g) := by
  simp [inject_data_quality_issues, h]

theorem inject_on_map {α β : Type} (dq : DQ) (dcols : List (Int → α → α))
    (ncols : List (α → α)) (now : Int) (df : List α) (g : RNG) (p : α → β)
    (hn : ∀ f ∈ ncols, ∀ a, p (f a) = p a) (hd : ∀ f ∈ dcols, ∀ t a, p (f t a) = p a)
    (h : ¬ dq.inject_issues = false) :
    ((inject_data_quality_issues dq dcols ncols now df g).1).map p =
      ((dupStage dq df g).1).map p := by
  simp only [inject_data_quality_issues, if_neg h]
  split
  · rw [futureStage_map _ _ p dcols hd, nullStage_map _ p ncols hn]
  · rw [nullStage_map _ p ncols hn]

theorem inject_on_length {α : Type} (dq : DQ) (dcols : List (Int → α → α))
    (ncols : List (α → α)) (now : Int) (df : List α) (g : RNG)
    (h : ¬ dq.inject_issues = false) :
    ((inject_data_quality_issues dq dcols ncols now df g).1).length =
      df.length + dupCount dq df.length := by
  simp only [inject_data_quality_issues, if_neg h]
  split
  · rw [futureStage_length, nullStage_length, dupStage_length]
  · rw [nullStage_length, dupStage_length]

theorem inject_mem {α β : Type} (dq : DQ) (dcols : List (Int → α → α))
    (ncols : List (α → α)) (now : Int) (df : List α) (g : RNG) (p : α → β)
    (hn : ∀ f ∈ ncols, ∀ a, p (f a) = p a) (hd : ∀ f ∈ dcols, ∀ t a, p (f t a) = p a) :
    ∀ r ∈ (inject_data_quality_issues dq dcols ncols now df g).1, p r ∈ df.map p := by
  intro r hr
  by_cases h : dq.inject_issues = false
  · rw [inject_off dq dcols ncols now df g h] at hr
    exact List.mem_map_of_mem p hr
  · have hmap := inject_on_map dq dcols ncols now df g p hn hd h
    have : p r ∈ ((inject_data_quality_issues dq dcols ncols now df g).1).map p :=
      List.mem_map_of_mem p hr
    rw [hmap] at this
    rcases List.mem_map.mp this with ⟨x, hx, hpx⟩
    exact hpx ▸ List.mem_map_of_mem p (dupStage_sub dq df g x hx)

theorem dupStage_take {α : Type} (dq : DQ) (df : List α) (g : RNG) :
    ((dupStage dq df g).1).take df.length = df := by
  simp only [dupStage]
  split
  · exact List.take_left df _
  · exact List.take_length df

theorem dupStage_decomp {α : Type} (dq : DQ) (df : List α) (g : RNG) :
    (dupStage dq df g).1 = df ++ ((dupStage dq df g).1).drop df.length := by
  conv_lhs => rw [← List.take_append_drop df.length (dupStage dq df g).1]
  rw [dupStage_take]

/-- C8: `inject_data_quality_issues` returns the table unchanged when
injection is disabled; when enabled it appends exactly
`int(n · duplicate_rate)` rows sampled from the original rows — so the
output has `n + int(n · duplicate_rate)` rows — and the null and
future-date steps only modify listed columns of existing rows (every
projection the column setters leave unchanged is unchanged on every row),
leaving the row count as the duplicate step left it. -/
theorem inject_data_quality_issues_spec {α : Type} (dq : DQ)
    (date_columns : List (Int → α → α)) (nullable_columns : List (α → α))
    (now : Int) (df : List α) (g : RNG) :
    (dq.inject_issues = false →
      inject_data_quality_issues dq date_columns nullable_columns now df g = (df, g)) ∧
    (dq.inject_issues = true →
      ((inject_data_quality_issues dq date_columns nullable_columns now df g).1).length =
        df.length + dupCount dq df.length ∧
      ∃ dups : List α, dups.length = dupCount dq df.length ∧
        (∀ r ∈ dups, r ∈ df) ∧
        ∀ (β : Type) (p : α → β),
          (∀ f ∈ nullable_columns, ∀ a, p (f a) = p a) →
          (∀ f ∈ date_columns, ∀ t a, p (f t a) = p a) →
          ((inject_data_quality_issues dq date_columns nullable_columns now df g).1).map p =
            (df ++ dups).map p) := by
  constructor
  · intro h
    exact inject_off dq date_columns nullable_columns now df g h
  · intro h
    have h' : ¬ dq.inject_issues = false := by simp [h]
    refine ⟨inject_on_length dq date_columns nullable_columns now df g h', ?_⟩
    refine ⟨((dupStage dq df g).1).drop df.length, ?_, ?_, ?_⟩
    · rw [List.length_drop, dupStage_length]
      omega
    · intro r hr
      exact dupStage_sub dq df g r (List.mem_of_mem_drop hr)
    · intro β p hn hd
      rw [inject_on_map dq date_columns nullable_columns now df g p hn hd h',
        ← dupStage_decomp]

/-- C3: for a source table that exists, `ingest_source_to_bronze` writes a
bronze copy whose columns are exactly the original columns plus the audit
columns `_bronze_loaded_at` and `_bronze_source`, whose rows are the
original rows extended by the audit cells (so every original column's
values and the row count are unchanged), and the re-read verification of
the row count succeeds. -/
theorem ingest_source_to_bronze_spec (fs : List (String × DF)) (source_name : String)
    (now : Int) (df : DF) (h : fsRead fs (rawPath source_name) = some df) :
    ∃ b : DF,
      fsRead (ingest_source_to_bronze fs source_name now).1 (bronzePath source_name) =
        some b ∧
      b.cols = df.cols ++ [bronzeLoadedAtCol, bronzeSourceCol] ∧
      b.rows = df.rows.map
        (fun r => r ++ [Cell.ts now, Cell.str (source_name ++ ".parquet")]) ∧
      b.rows.length = df.rows.length ∧
      (ingest_source_to_bronze fs source_name now).2 = some true := by
  simp only [ingest_source_to_bronze, h]
  simp only [fsRead, if_pos rfl]
  refine ⟨_, rfl, rfl, rfl, ?_, ?_⟩
  · exact List.length_map _ _
  · simp [List.length_map]

/-- A concrete source table for the ingestion witness. -/
def dfEx : DF := { cols := ["payer_id"], rows := [[Cell.str ("P1")], [Cell.str ("P2")]] }

/-- A concrete file store holding one raw source file. -/
def fsEx : List (String × DF) := [(rawPath "claims", dfEx)]

theorem ingest_source_to_bronze_spec_witness :
    fsRead fsEx (rawPath "claims") = some dfEx ∧
    ∃ b : DF,
      fsRead (ingest_source_to_bronze fsEx "claims" 7).1 (bronzePath "claims") = some b ∧
      b.cols = dfEx.cols ++ [bronzeLoadedAtCol, bronzeSourceCol] ∧
      b.rows = dfEx.rows.map (fun r => r ++ [Cell.ts 7, Cell.str ("claims" ++ ".parquet")]) ∧
      b.rows.length = dfEx.rows.length ∧
      (ingest_source_to_bronze fsEx "claims" 7).2 = some true :=
  ⟨by simp [fsEx, fsRead], ingest_source_to_bronze_spec fsEx "claims" 7 dfEx
    (by simp [fsEx, fsRead])⟩

theorem caseRows_cons (now : Int) (e : Enrollment) (es : List Enrollment) (g : RNG) :
    caseRows now (e :: es) g =
      ((caseRow e now g).1 :: (caseRows now es (caseRow e now g).2).1,
       (caseRows now es (caseRow e now g).2).2) := rfl

theorem caseRow_fields (e : Enrollment) (now : Int) (g : RNG) :
    ((caseRow e now g).1).enrollment_id = e.enrollment_id ∧
    ((caseRow e now g).1).patient_id_hash = e.patient_id_hash ∧
    ((caseRow e now g).1).current_status ∈ [ACTIVE, CLOSED, ON_HOLD] ∧
    ((((caseRow e now g).1).closed_ts ≠ none ∧ ((caseRow e now g).1).closure_reason ≠ none) ↔
      ((caseRow e now g).1).current_status = CLOSED) := by
  simp only [caseRow]
  split
  · next hst =>
    refine ⟨trivial, trivial, ?_, ?_⟩
    · exact hst ▸ weighted_choice_mem _ _ _ _ (by simp)
    · simp [hst]
  · next hst =>
    refine ⟨trivial, trivial, ?_, ?_⟩
    · exact weighted_choice_mem _ _ _ _ (by simp)
    · simp [hst]

theorem caseRows_length (now : Int) :
    ∀ (E : List Enrollment) (g : RNG), ((caseRows now E g).1).length = E.length := by
  intro E
  induction E with
  | nil => intro g; rfl
  | cons e es ih => intro g; rw [caseRows_cons]; simp [ih]

theorem caseRows_get (now : Int) :
    ∀ (E : List Enrollment) (g : RNG) (i : Nat) (e : Enrollment) (c : Case),
      E.get? i = some e → ((caseRows now E g).1).get? i = some c →
      c.enrollment_id = e.enrollment_id ∧
      c.patient_id_hash = e.patient_id_hash ∧
      c.current_status ∈ [ACTIVE, CLOSED, ON_HOLD] ∧
      ((c.closed_ts ≠ none ∧ c.closure_reason ≠ none) ↔ c.current_status = CLOSED) := by
  intro E
  induction E with
  | nil => intro g i e c he _; simp at he
  | cons e0 es ih =>
    intro g i e c he hc
    rw [caseRows_cons] at hc
    cases i with
    | zero =>
      simp only [List.get?_cons_zero, Option.some_inj] at he hc
      subst he
      subst hc
      exact caseRow_fields e0 now g
    | succ j =>
      simp only [List.get?_cons_succ] at he hc
      exact ih _ j e c he hc

/-- C6: with data-quality injection disabled, `generate_cases` produces
exactly one case per enrollment row in the same order; each case carries
the enrollment's id and patient hash, a status among ACTIVE, CLOSED,
ON_HOLD, and its closing timestamp and closure reason are set exactly
when the status is CLOSED. -/
theorem generate_cases_spec (enrollments_df : List Enrollment) (cfg : Config) (now : Int)
    (g : RNG) (hoff : cfg.data_quality.inject_issues = false) :
    ((generate_cases enrollments_df cfg now g).1).length = enrollments_df.length ∧
    ∀ (i : Nat) (e : Enrollment) (c : Case),
      enrollments_df.get? i = some e →
      ((generate_cases enrollments_df cfg now g).1).get? i = some c →
      c.enrollment_id = e.enrollment_id ∧
      c.patient_id_hash = e.patient_id_hash ∧
      c.current_status ∈ [ACTIVE, CLOSED, ON_HOLD] ∧
      ((c.closed_ts ≠ none ∧ c.closure_reason ≠ none) ↔ c.current_status = CLOSED) := by
  have hgen : generate_cases enrollments_df cfg now g = caseRows now enrollments_df g := by
    simp only [generate_cases]
    rcases hc : caseRows now enrollments_df g with ⟨df, g2⟩
    rw [inject_off _ _ _ _ _ _ hoff]
  rw [hgen]
  exact ⟨caseRows_length now enrollments_df g, caseRows_get now enrollments_df g⟩

/-- A one-row enrollments table for the witnesses, with the oracle stream
constantly zero. -/
def gEx : RNG := ⟨fun _ => 0, 0⟩

/-- A concrete data-quality configuration with injection disabled. -/
def dqOff : DQ :=
  { inject_issues := false, duplicate_rate := 5/1000, null_rate_optional := 2/100,
    future_date_rate := 1/1000 }

/-- A concrete enrollment row for the witnesses. -/
def eEx : Enrollment :=
  { enrollment_id := (1970, 1)
    patient_id_hash := 0
    program_id := "PRG-001"
    program_name := "Program"
    program_type := "FULL_SERVICE"
    indication := "X"
    ndc_code := "00000-0000-00"
    enrolled_ts := 86400 * 100
    enrolled_month := format_month_partition (86400 * 100)
    inquiry_ts := some (86400 * 99)
    enrollment_channel := "HUB"
    hub_vendor := none
    payer_id := some ("PAY-1")
    payer_name := some ("Payer")
    plan_type := "COMMERCIAL"
    prescriber_npi := 1000000000
    prescriber_specialty := "ONC"
    patient_state := "CA"
    patient_zip3 := 123
    created_at := 0 }

/-- A concrete configuration for the witnesses: one enrollment, injection
disabled, a one-product catalogue. -/
def cfgEx : Config :=
  { random_seed := 42
    scale := { enrollments := 1, start_date := 0, end_date := 86400 * 365,
               years_of_data := 1 }
    claims_per_patient_year := 10
    shipments_per_shipped_patient := 2
    first_shipment := 1
    refill_cadence := [{ days_supply := 30, weight := 1 }]
    channels := [{ name := "HUB", weight := 1 }]
    hub_vendors := [{ name := "VendorA", weight := 1 }]
    program_types := [{ name := "FULL_SERVICE", weight := 1 }]
    products := [{ product_id := "PRG-001", product_name := "Program", indication := "X",
                   ndc := "00000-0000-00", weight := 1 }]
    payers := [{ payer_id := "PAY-1", payer_name := "Payer", weight := 1 }]
    plan_types := [{ name := "COMMERCIAL", weight := 1 }]
    prescriber_specialties := [{ name := "ONC", weight := 1 }]
    data_quality := dqOff
    enrollment_nullable_fields := [] }

theorem generate_cases_spec_witness :
    cfgEx.data_quality.inject_issues = false ∧
    ((generate_cases [eEx] cfgEx 0 gEx).1).length = 1 :=
  ⟨rfl, by
    have h := (generate_cases_spec [eEx] cfgEx 0 gEx rfl).1
    simpa using h⟩

theorem caseRows_mem (now : Int) :
    ∀ (E : List Enrollment) (g : RNG), ∀ c ∈ (caseRows now E g).1,
      c.enrollment_id ∈ E.map (·.enrollment_id) := by
  intro E
  induction E with
  | nil => intro g c hc; simp [caseRows] at hc
  | cons e es ih =>
    intro g c hc
    rw [caseRows_cons] at hc
    rcases List.mem_cons.mp hc with h | h
    · subst h
      simp [(caseRow_fields e now g).1]
    · simp only [List.map_cons, List.mem_cons]
      exact Or.inr (ih _ c h)

theorem generate_cases_eq (E : List Enrollment) (cfg : Config) (now : Int) (g : RNG) :
    generate_cases E cfg now g =
      inject_data_quality_issues cfg.data_quality
        [fun t c => { c with case_opened_ts := t }, fun t c => { c with closed_ts := some t }]
        [fun c => { c with closed_ts := none }, fun c => { c with closure_reason := none }]
        now (caseRows now E g).1 (caseRows now E g).2 := rfl

theorem shipmentStep_enrollment (cfg : Config) (e : Enrollment) (now : Int)
    (refill_num counter : Nat) (ship : Int) (g : RNG) :
    ((shipmentStep cfg e now refill_num counter ship g).1).enrollment_id =
      e.enrollment_id := rfl

theorem refillLoop_enrollment (cfg : Config) (e : Enrollment) (now : Int) :
    ∀ (rem refill_num counter : Nat) (ship : Int) (g : RNG),
      ∀ s ∈ (refillLoop cfg e now rem refill_num counter ship g).1,
        s.enrollment_id = e.enrollment_id := by
  intro rem
  induction rem with
  | zero => intro rn ctr ship g s hs; simp [refillLoop] at hs
  | succ m ih =>
    intro rn ctr ship g s hs
    simp only [refillLoop] at hs
    split at hs
    · have h := List.mem_singleton.mp hs
      subst h
      exact shipmentStep_enrollment cfg e now rn ctr ship g
    · rcases List.mem_cons.mp hs with h | h
      · subst h
        exact shipmentStep_enrollment cfg e now rn ctr ship g
      · exact ih _ _ _ _ s h

theorem shipmentRows_mem (cfg : Config) (now : Int) :
    ∀ (E : List Enrollment) (counter : Nat) (g : RNG),
      ∀ s ∈ (shipmentRows cfg now E counter g).1,
        s.enrollment_id ∈ E.map (·.enrollment_id) := by
  intro E
  induction E with
  | nil => intro ctr g s hs; simp [shipmentRows] at hs
  | cons e es ih =>
    intro ctr g s hs
    simp only [shipmentRows] at hs
    rcases List.mem_append.mp hs with h | h
    · simp only [List.map_cons, List.mem_cons]
      exact Or.inl (refillLoop_enrollment cfg e now _ _ _ _ _ s h)
    · simp only [List.map_cons, List.mem_cons]
      exact Or.inr (ih _ _ s h)

theorem sampleFrac_sub {α : Type} (r : ℚ) (df : List α) (g : RNG) :
    ∀ x ∈ (sampleFrac r df g).1, x ∈ df := by
  intro x hx
  simp only [sampleFrac] at hx
  exact mem_filterMap_get? df _ x hx

theorem generate_shipments_eq (E : List Enrollment) (cfg : Config) (now : Int) (g : RNG) :
    generate_shipments E cfg now g =
      inject_data_quality_issues cfg.data_quality
        [fun t s => { s with fill_date := t / 86400 },
         fun t s => { s with ship_date := t / 86400 }]
        [fun s => { s with copay_amount := none }]
        now
        (shipmentRows cfg now (sampleFrac cfg.first_shipment E g).1 0
          (sampleFrac cfg.first_shipment E g).2).1
        (shipmentRows cfg now (sampleFrac cfg.first_shipment E g).1 0
          (sampleFrac cfg.first_shipment E g).2).2.2 := rfl

theorem generate_shipments_mem (E : List Enrollment) (cfg : Config) (now : Int) (g : RNG) :
    ∀ s ∈ (generate_shipments E cfg now g).1,
      s.enrollment_id ∈ E.map (·.enrollment_id) := by
  intro s hs
  rw [generate_shipments_eq] at hs
  have hmem := inject_mem _ _ _ _ _ _ (fun s => s.enrollment_id)
    (by
      intro f hf a
      rcases List.mem_cons.mp hf with h | h
      · subst h; rfl
      · simp at h)
    (by
      intro f hf t a
      rcases List.mem_cons.mp hf with h | h
      · subst h; rfl
      · simp at h; subst h; rfl)
    s hs
  rcases List.mem_map.mp hmem with ⟨s0, hs0, heq⟩
  have heq' : s0.enrollment_id = s.enrollment_id := heq
  have h1 := shipmentRows_mem cfg now _ _ _ s0 hs0
  rcases List.mem_map.mp h1 with ⟨e0, he0, heq0⟩
  have he0' : e0 ∈ E := sampleFrac_sub cfg.first_shipment E g e0 he0
  rw [← heq', ← heq0]
  exact List.mem_map_of_mem _ he0'

theorem map_map_proj {α β : Type} (p : α → β) (f : α → α) (hp : ∀ a, p (f a) = p a)
    (l : List α) : (l.map f).map p = l.map p := by
  rw [List.map_map]
  exact List.map_congr_left (fun a _ => hp a)

theorem stageDraw_map {β γ : Type} (pred : Claim → Bool) (upd : β → Claim → Claim)
    (draw : RNG → β × RNG) (p : Claim → γ) (hp : ∀ x c, p (upd x c) = p c) :
    ∀ (l : List Claim) (g : RNG), ((stageDraw pred upd draw l g).1).map p = l.map p := by
  intro l
  induction l with
  | nil => intro g; rfl
  | cons c cs ih =>
    intro g
    show ((if pred c then upd (draw g).1 c else c) ::
      (stageDraw pred upd draw cs (draw g).2).1).map p = (c :: cs).map p
    simp only [List.map_cons, ih]
    congr 1
    split
    · exact hp _ c
    · rfl

theorem stageDrawWhere_map {β γ : Type} (pred : Claim → Bool) (upd : β → Claim → Claim)
    (draw : RNG → β × RNG) (p : Claim → γ) (hp : ∀ x c, p (upd x c) = p c) :
    ∀ (l : List Claim) (g : RNG), ((stageDrawWhere pred upd draw l g).1).map p = l.map p := by
  intro l
  induction l with
  | nil => intro g; rfl
  | cons c cs ih =>
    intro g
    simp only [stageDrawWhere]
    split
    · simp only [List.map_cons, ih, hp]
    · simp only [List.map_cons, ih]

theorem numberRows_enrollment (e : Enrollment) (start : Int) :
    ∀ (offs : List Int) (counter : Nat), ∀ c ∈ numberRows e start counter offs,
      c.enrollment_id = e.enrollment_id := by
  intro offs
  induction offs with
  | nil => intro ctr c hc; simp [numberRows] at hc
  | cons o os ih =>
    intro ctr c hc
    rcases List.mem_cons.mp hc with h | h
    · subst h; rfl
    · exact ih _ c h

theorem claimsPatientLoop_mem (S : List Shipment) :
    ∀ (pairs : List (Enrollment × Nat)) (counter : Nat) (g : RNG),
      ∀ c ∈ (claimsPatientLoop S pairs counter g).1,
        ∃ pr ∈ pairs, c.enrollment_id = pr.1.enrollment_id := by
  intro pairs
  induction pairs with
  | nil => intro ctr g c hc; simp [claimsPatientLoop] at hc
  | cons pr prs ih =>
    intro ctr g c hc
    rcases List.mem_append.mp hc with h | h
    · exact ⟨pr, by simp, numberRows_enrollment pr.1 _ _ _ c h⟩
    · rcases ih _ _ c h with ⟨pr', hpr', heq⟩
      exact ⟨pr', by simp [hpr'], heq⟩

theorem shipped_patients_sub (E : List Enrollment) (S : List Shipment) :
    ∀ e ∈ shipped_patients E S, e ∈ E := by
  intro e he
  exact List.mem_of_mem_filter he

theorem generate_claims_mem (E : List Enrollment) (S : List Shipment) (cfg : Config)
    (now : Int) (g : RNG) :
    ∀ c ∈ (generate_claims E S cfg now g).1,
      c.enrollment_id ∈ E.map (·.enrollment_id) := by
  intro c hc
  simp only [generate_claims] at hc
  have hmem := inject_mem _ _ _ _ _ _ (fun c => c.enrollment_id)
    (by
      intro f hf a
      rcases List.mem_cons.mp hf with h | h
      · subst h; rfl
      rcases List.mem_cons.mp h with h | h
      · subst h; rfl
      rcases List.mem_cons.mp h with h | h
      · subst h; rfl
      · simp at h; subst h; rfl)
    (by
      intro f hf t a
      rcases List.mem_cons.mp hf with h | h
      · subst h; rfl
      · simp at h)
    c hc
  rw [map_map_proj (fun (c : Claim) => c.enrollment_id) (fun c => { c with created_at := now })
    (fun a => rfl)] at hmem
  rw [map_map_proj (fun (c : Claim) => c.enrollment_id)
    (fun c => if c.patient_paid == some 0 then { c with patient_paid := none } else c)
    (fun a => by dsimp only; split <;> rfl)] at hmem
  rw [map_map_proj (fun (c : Claim) => c.enrollment_id)
    (fun c => if c.paid_amount == some 0 then { c with paid_amount := none } else c)
    (fun a => by dsimp only; split <;> rfl)] at hmem
  rw [stageDrawWhere_map paidMedical (fun q c => { c with patient_paid := some q })
    (uniformQ 0 50) (fun c => c.enrollment_id) (fun x a => rfl)] at hmem
  rw [stageDrawWhere_map paidMedical (fun q c => { c with paid_amount := some q })
    (uniformQ 100 500) (fun c => c.enrollment_id) (fun x a => rfl)] at hmem
  rw [stageDrawWhere_map paidPharmacy (fun q c => { c with patient_paid := some q })
    (uniformQ 0 500) (fun c => c.enrollment_id) (fun x a => rfl)] at hmem
  rw [stageDrawWhere_map paidPharmacy (fun q c => { c with paid_amount := some q })
    (uniformQ 5000 15000) (fun c => c.enrollment_id) (fun x a => rfl)] at hmem
  rw [map_map_proj (fun (c : Claim) => c.enrollment_id)
    (fun c => { c with paid_amount := some 0, patient_paid := some 0 }) (fun a => rfl)] at hmem
  rw [stageDraw_map (fun _ => true) (fun t c => { c with claim_status := t })
    (weighted_choice [PAID, DENIED, PENDING] [85/100, 1/10, 5/100] PAID)
    (fun c => c.enrollment_id) (fun x a => rfl)] at hmem
  rw [map_map_proj (fun (c : Claim) => c.enrollment_id)
    (fun c => if c.claim_type == MEDICAL then { c with ndc_code := none } else c)
    (fun a => by dsimp only; split <;> rfl)] at hmem
  rw [stageDraw_map (fun c => c.claim_type == MEDICAL)
    (fun t c => { c with procedure_code := some t }) (choice procedure_codes "99213")
    (fun c => c.enrollment_id) (fun x a => rfl)] at hmem
  rw [stageDraw_map (fun _ => true) (fun t c => { c with claim_type := t })
    (weighted_choice [PHARMACY, MEDICAL] [6/10, 4/10] PHARMACY)
    (fun c => c.enrollment_id) (fun x a => rfl)] at hmem
  rcases List.mem_map.mp hmem with ⟨c0, hc0, heq⟩
  have heq' : c0.enrollment_id = c.enrollment_id := heq
  rcases claimsPatientLoop_mem S _ _ _ c0 hc0 with ⟨pr, hpr, heq0⟩
  have he : pr.1 ∈ shipped_patients E S := (List.of_mem_zip hpr).1
  have heE : pr.1 ∈ E := shipped_patients_sub E S pr.1 he
  rw [← heq', heq0]
  exact List.mem_map_of_mem _ heE

/-- C7: every enrollment id appearing in the generated cases, shipments
and claims tables (data-quality injection included) is the enrollment id
of some row of the input enrollments table: duplicated rows copy existing
rows and `enrollment_id` is never a null-injection target. -/
theorem enrollment_id_referential_integrity (E : List Enrollment) (S : List Shipment)
    (cfg : Config) (now : Int) (g : RNG) :
    (∀ c ∈ (generate_cases E cfg now g).1, c.enrollment_id ∈ E.map (·.enrollment_id)) ∧
    (∀ s ∈ (generate_shipments E cfg now g).1, s.enrollment_id ∈ E.map (·.enrollment_id)) ∧
    (∀ cl ∈ (generate_claims E S cfg now g).1, cl.enrollment_id ∈ E.map (·.enrollment_id)) := by
  refine ⟨?_, generate_shipments_mem E cfg now g, generate_claims_mem E S cfg now g⟩
  intro c hc
  rw [generate_cases_eq] at hc
  have hmem := inject_mem _ _ _ _ _ _ (fun c => c.enrollment_id)
    (by
      intro f hf a
      rcases List.mem_cons.mp hf with h | h
      · subst h; rfl
      · simp at h; subst h; rfl)
    (by
      intro f hf t a
      rcases List.mem_cons.mp hf with h | h
      · subst h; rfl
      · simp at h; subst h; rfl)
    c hc
  rcases List.mem_map.mp hmem with ⟨c0, hc0, heq⟩
  have heq' : c0.enrollment_id = c.enrollment_id := heq
  rw [← heq']
  exact caseRows_mem now E g c0 hc0

/-! ### Status-history lemmas -/

theorem statusRecords_statuses (c : Case) (now : Int) :
    ∀ (path : List String) (i : Nat) (ts : Int) (g : RNG),
      ((statusRecords c now path i ts g).1).map (·.status) = path := by
  intro path
  induction path with
  | nil => intro i ts g; rfl
  | cons s rest ih =>
    intro i ts g
    simp only [statusRecords]
    simp [ih]

theorem choosePath_spec (c : Case) (g : RNG) :
    (c.current_status = ACTIVE → (choosePath c g).1 = successful_path) ∧
    (c.current_status = CLOSED → c.closure_reason = some COMPLETED_THERAPY →
      (choosePath c g).1 = successful_path ++ [CLOSED]) ∧
    (c.current_status = CLOSED → c.closure_reason ≠ some COMPLETED_THERAPY →
      (choosePath c g).1 ∈ [abandoned_early, abandoned_at_bv, abandoned_at_pa]) ∧
    (c.current_status ≠ ACTIVE → c.current_status ≠ CLOSED →
      ∃ k : Nat, 3 ≤ k ∧ k ≤ 6 ∧ (choosePath c g).1 = successful_path.take k) := by
  refine ⟨?_, ?_, ?_, ?_⟩
  · intro h
    simp [choosePath, h]
  · intro h hr
    simp [choosePath, h, hr, show CLOSED ≠ ACTIVE from by decide]
  · intro h hr
    have hne : ¬ c.current_status = ACTIVE := by
      rw [h]; decide
    simp only [choosePath, if_neg hne, if_pos h, if_neg hr]
    exact choice_mem _ _ _ (by simp)
  · intro h1 h2
    simp only [choosePath, if_neg h1, if_neg h2]
    have hb := randint_bounds 3 6 g (by norm_num)
    refine ⟨((randint 3 6 g).1).toNat, by omega, by omega, rfl⟩

theorem caseHistory_eq (c : Case) (inquiry_ts : Option Int) (enrolled_ts now : Int)
    (g : RNG) :
    caseHistory c inquiry_ts enrolled_ts now g =
      statusRecords c now (choosePath c g).1 0
        (match inquiry_ts with | some t => t | none => enrolled_ts)
        (choosePath c g).2 := rfl

/-- C4: the status sequence `generate_status_history` emits for a case is
the successful eight-step path for an ACTIVE case; the successful path
plus CLOSED for a CLOSED case with closure reason COMPLETED_THERAPY; one
of the three fixed abandoned paths for every other CLOSED case; and a
3–6 step prefix of the successful path for the remaining (ON_HOLD)
cases. -/
theorem caseHistory_paths (c : Case) (inquiry_ts : Option Int) (enrolled_ts now : Int)
    (g : RNG) :
    (c.current_status = ACTIVE →
      ((caseHistory c inquiry_ts enrolled_ts now g).1).map (·.status) = successful_path) ∧
    (c.current_status = CLOSED → c.closure_reason = some COMPLETED_THERAPY →
      ((caseHistory c inquiry_ts enrolled_ts now g).1).map (·.status) =
        successful_path ++ [CLOSED]) ∧
    (c.current_status = CLOSED → c.closure_reason ≠ some COMPLETED_THERAPY →
      ((caseHistory c inquiry_ts enrolled_ts now g).1).map (·.status) ∈
        [abandoned_early, abandoned_at_bv, abandoned_at_pa]) ∧
    (c.current_status ≠ ACTIVE → c.current_status ≠ CLOSED →
      ∃ k : Nat, 3 ≤ k ∧ k ≤ 6 ∧
        ((caseHistory c inquiry_ts enrolled_ts now g).1).map (·.status) =
          successful_path.take k) := by
  have hmap : ((caseHistory c inquiry_ts enrolled_ts now g).1).map (·.status) =
      (choosePath c g).1 := by
    rw [caseHistory_eq]
    exact statusRecords_statuses c now _ _ _ _
  rw [hmap]
  exact choosePath_spec c g

theorem statusDelay_pos (s : String) (g : RNG) : 1 ≤ (statusDelay s g).1 := by
  unfold statusDelay
  split
  · exact (randint_bounds 1 10 g (by norm_num)).1
  split
  · exact le_trans (by norm_num) (randint_bounds 3 14 g (by norm_num)).1
  · exact (randint_bounds 1 5 g (by norm_num)).1

theorem statusRecords_chain (c : Case) (now : Int) :
    ∀ (path : List String) (i : Nat) (ts : Int) (g : RNG),
      List.Chain' (fun a b => a.status_start_ts < b.status_start_ts)
        ((statusRecords c now path i ts g).1) ∧
      (∀ r, ((statusRecords c now path i ts g).1).head? = some r →
        ts ≤ r.status_start_ts ∧ (i ≠ 0 → ts + 86400 ≤ r.status_start_ts)) := by
  intro path
  induction path with
  | nil =>
    intro i ts g
    exact ⟨List.chain'_nil, by intro r hr; simp [statusRecords] at hr⟩
  | cons s rest ih =>
    intro i ts g
    by_cases hi : i = 0 <;> by_cases hrest : rest = []
    · subst hi
      subst hrest
      simp only [statusRecords, if_pos rfl, reduceIte]
      refine ⟨by simp [statusRecords], ?_⟩
      intro r hr
      simp only [List.head?_cons, Option.some_inj] at hr
      subst hr
      exact ⟨le_refl _, fun h => absurd rfl h⟩
    · subst hi
      simp only [statusRecords, if_pos rfl, if_neg hrest, reduceIte, ite_true]
      have hrb := (randint_bounds 1 3 g (by norm_num)).1
      refine ⟨?_, ?_⟩
      · rw [List.chain'_cons']
        refine ⟨?_, (ih 1 _ _).1⟩
        intro y hy
        have hh := ((ih 1 _ _).2 y hy).2 (by omega)
        simp only [] at hh ⊢
        omega
      · intro r hr
        simp only [List.head?_cons, Option.some_inj] at hr
        subst hr
        exact ⟨le_refl _, fun h => absurd rfl h⟩
    · simp only [statusRecords, if_neg hi]
      subst hrest
      simp only [reduceIte]
      have hd := statusDelay_pos s g
      refine ⟨by simp [statusRecords], ?_⟩
      intro r hr
      simp only [List.head?_cons, Option.some_inj] at hr
      subst hr
      exact ⟨by simp only []; omega, fun _ => by simp only []; omega⟩
    · simp only [statusRecords, if_neg hi, if_neg hrest]
      have hd := statusDelay_pos s g
      have hrb := (randint_bounds 1 3 (statusDelay s g).2 (by norm_num)).1
      refine ⟨?_, ?_⟩
      · rw [List.chain'_cons']
        refine ⟨?_, (ih (i + 1) _ _).1⟩
        intro y hy
        have hh := ((ih (i + 1) _ _).2 y hy).2 (by omega)
        simp only [] at hh ⊢
        omega
      · intro r hr
        simp only [List.head?_cons, Option.some_inj] at hr
        subst hr
        exact ⟨by simp only []; omega, fun _ => by simp only []; omega⟩

theorem statusRecords_length (c : Case) (now : Int) (path : List String) (i : Nat)
    (ts : Int) (g : RNG) : ((statusRecords c now path i ts g).1).length = path.length := by
  have h := statusRecords_statuses c now path i ts g
  calc ((statusRecords c now path i ts g).1).length
      = (((statusRecords c now path i ts g).1).map (·.status)).length :=
        (List.length_map _ _).symm
    _ = path.length := by rw [h]

theorem end_none_cons_helper {r0 : StatusRecord} {REST : List StatusRecord}
    (hne : REST ≠ []) (h0 : r0.status_end_ts ≠ none)
    (hl : ∀ r ∈ REST.dropLast, r.status_end_ts ≠ none)
    (hg : ∀ h : REST ≠ [], (REST.getLast h).status_end_ts = none) :
    (∀ r ∈ (r0 :: REST).dropLast, r.status_end_ts ≠ none) ∧
    (∀ h : (r0 :: REST) ≠ [], ((r0 :: REST).getLast h).status_end_ts = none) := by
  constructor
  · intro r hr
    rcases REST with _ | ⟨b, l⟩
    · exact absurd rfl hne
    · rw [List.dropLast_cons₂] at hr
      rcases List.mem_cons.mp hr with h | h
      · exact h ▸ h0
      · exact hl r h
  · intro h
    rw [List.getLast_cons hne]
    exact hg hne

theorem statusRecords_end_none (c : Case) (now : Int) :
    ∀ (path : List String) (i : Nat) (ts : Int) (g : RNG),
      (∀ r ∈ ((statusRecords c now path i ts g).1).dropLast, r.status_end_ts ≠ none) ∧
      (∀ h : (statusRecords c now path i ts g).1 ≠ [],
        (((statusRecords c now path i ts g).1).getLast h).status_end_ts = none) := by
  intro path
  induction path with
  | nil =>
    intro i ts g
    refine ⟨by intro r hr; simp [statusRecords] at hr, ?_⟩
    intro h
    exact absurd rfl h
  | cons s rest ih =>
    intro i ts g
    by_cases hrest : rest = []
    · subst hrest
      simp only [statusRecords, reduceIte]
      constructor
      · intro r hr
        simp [statusRecords] at hr
      · intro h
        simp [statusRecords]
    · simp only [statusRecords, if_neg hrest]
      refine end_none_cons_helper ?_ (by simp) (ih _ _ _).1 (ih _ _ _).2
      intro hemp
      have hlen := congrArg List.length hemp
      rw [statusRecords_length] at hlen
      simp at hlen
      exact hrest hlen

theorem statusRecords_reason (c : Case) (now : Int) :
    ∀ (path : List String) (i : Nat) (ts : Int) (g : RNG),
      ∀ r ∈ (statusRecords c now path i ts g).1, r.status_reason ≠ none →
        r.status = PA_DENIED ∨ r.status = ABANDONED := by
  intro path
  induction path with
  | nil => intro i ts g r hr; simp [statusRecords] at hr
  | cons s rest ih =>
    intro i ts g r hr hreason
    simp only [statusRecords] at hr
    rcases List.mem_cons.mp hr with h | h
    · subst h
      by_cases h1 : s = PA_DENIED
      · left
        simpa using h1
      · by_cases h2 : s = ABANDONED
        · right
          simpa using h2
        · exfalso
          simp only [if_neg h1, if_neg h2] at hreason
          exact hreason rfl
    · exact ih _ _ _ r h hreason

/-- C5: within one case's generated status-history records (before
data-quality injection), the start timestamps strictly increase from each
record to the next, the end timestamp is null exactly on the last record,
and a status reason appears only on PA_DENIED or ABANDONED records. -/
theorem caseHistory_record_invariants (c : Case) (inquiry_ts : Option Int)
    (enrolled_ts now : Int) (g : RNG) :
    List.Chain' (fun a b => a.status_start_ts < b.status_start_ts)
      ((caseHistory c inquiry_ts enrolled_ts now g).1) ∧
    (∀ r ∈ ((caseHistory c inquiry_ts enrolled_ts now g).1).dropLast,
      r.status_end_ts ≠ none) ∧
    (∀ h : (caseHistory c inquiry_ts enrolled_ts now g).1 ≠ [],
      (((caseHistory c inquiry_ts enrolled_ts now g).1).getLast h).status_end_ts = none) ∧
    (∀ r ∈ (caseHistory c inquiry_ts enrolled_ts now g).1, r.status_reason ≠ none →
      r.status = PA_DENIED ∨ r.status = ABANDONED) := by
  rw [caseHistory_eq]
  exact ⟨(statusRecords_chain c now _ _ _ _).1,
    (statusRecords_end_none c now _ _ _ _).1,
    (statusRecords_end_none c now _ _ _ _).2,
    statusRecords_reason c now _ _ _ _⟩

/-! ### Claim-date lemmas -/

theorem foldl_min_le_init : ∀ (ds : List Int) (d : Int), ds.foldl min d ≤ d := by
  intro ds
  induction ds with
  | nil => intro d; exact le_refl d
  | cons x xs ih =>
    intro d
    calc (x :: xs).foldl min d = xs.foldl min (min d x) := rfl
      _ ≤ min d x := ih (min d x)
      _ ≤ d := min_le_left d x

theorem init_le_foldl_max : ∀ (ds : List Int) (d : Int), d ≤ ds.foldl max d := by
  intro ds
  induction ds with
  | nil => intro d; exact le_refl d
  | cons x xs ih =>
    intro d
    calc d ≤ max d x := le_max_left d x
      _ ≤ xs.foldl max (max d x) := ih (max d x)
      _ = (x :: xs).foldl max d := rfl

theorem firstShip_le_lastShip (S : List Shipment) (eid : Int × Nat) :
    firstShipDay S eid ≤ lastShipDay S eid := by
  unfold firstShipDay lastShipDay
  cases h : (S.filter (fun s => s.enrollment_id = eid)).map (·.ship_date) with
  | nil => exact le_refl 0
  | cons d ds => exact le_trans (foldl_min_le_init ds d) (init_le_foldl_max ds d)

theorem claimRangeSpan_pos (S : List Shipment) (eid : Int × Nat) :
    0 < claimRangeSpan S eid := by
  have h := firstShip_le_lastShip S eid
  unfold claimRangeSpan claimRangeStart
  omega

theorem claim_date_bound (S : List Shipment) (eid : Int × Nat) (off : Int)
    (h0 : 0 ≤ off) (h1 : off < claimRangeSpan S eid) :
    firstShipDay S eid - 30 ≤ (claimRangeStart S eid + off) / 86400 ∧
    (claimRangeStart S eid + off) / 86400 ≤ lastShipDay S eid + 30 := by
  constructor
  · have hle : (firstShipDay S eid - 30) * 86400 ≤ claimRangeStart S eid + off := by
      unfold claimRangeStart
      omega
    calc firstShipDay S eid - 30 = (firstShipDay S eid - 30) * 86400 / 86400 :=
        (Int.mul_ediv_cancel _ (by norm_num)).symm
      _ ≤ (claimRangeStart S eid + off) / 86400 := Int.ediv_le_ediv (by norm_num) hle
  · have hlt : claimRangeStart S eid + off < (lastShipDay S eid + 30) * 86400 := by
      unfold claimRangeSpan claimRangeStart at h1
      unfold claimRangeStart
      omega
    exact le_of_lt ((Int.ediv_lt_iff_lt_mul (by norm_num)).mpr hlt)

theorem numberRows_bound (e : Enrollment) (S : List Shipment) :
    ∀ (offs : List Int) (counter : Nat),
      (∀ o ∈ offs, 0 ≤ o ∧ o < claimRangeSpan S e.enrollment_id) →
      ∀ cl ∈ numberRows e (claimRangeStart S e.enrollment_id) counter offs,
        firstShipDay S cl.enrollment_id - 30 ≤ cl.claim_date ∧
        cl.claim_date ≤ lastShipDay S cl.enrollment_id + 30 := by
  intro offs
  induction offs with
  | nil => intro ctr _ cl hcl; simp [numberRows] at hcl
  | cons o os ih =>
    intro ctr hb cl hcl
    rcases List.mem_cons.mp hcl with h | h
    · subst h
      have hbo := hb o (by simp)
      exact claim_date_bound S e.enrollment_id o hbo.1 hbo.2
    · exact ih _ (fun o' ho' => hb o' (by simp [ho'])) cl h

theorem claimsPatientLoop_bound (S : List Shipment) :
    ∀ (pairs : List (Enrollment × Nat)) (counter : Nat) (g : RNG),
      ∀ cl ∈ (claimsPatientLoop S pairs counter g).1,
        firstShipDay S cl.enrollment_id - 30 ≤ cl.claim_date ∧
        cl.claim_date ≤ lastShipDay S cl.enrollment_id + 30 := by
  intro pairs
  induction pairs with
  | nil => intro ctr g cl hcl; simp [claimsPatientLoop] at hcl
  | cons pr prs ih =>
    intro ctr g cl hcl
    rcases List.mem_append.mp hcl with h | h
    · refine numberRows_bound pr.1 S _ _ ?_ cl h
      intro o ho
      exact draws_forall _
        (fun x => 0 ≤ x ∧ x < claimRangeSpan S pr.1.enrollment_id)
        (fun g' => uniform0_bounds _ g' (claimRangeSpan_pos S pr.1.enrollment_id))
        _ _ o ho
    · exact ih _ _ cl h

/-- C1 (amended): with data-quality injection disabled, every claim row
`generate_claims` produces has a claim date within the patient's shipment
date range widened by the 30-day buffer on both ends: between the
earliest ship date minus 30 days and the latest ship date plus 30 days. -/
theorem generate_claims_date_range (E : List Enrollment) (S : List Shipment) (cfg : Config)
    (now : Int) (g : RNG) (hoff : cfg.data_quality.inject_issues = false) :
    ∀ c ∈ (generate_claims E S cfg now g).1,
      firstShipDay S c.enrollment_id - 30 ≤ c.claim_date ∧
      c.claim_date ≤ lastShipDay S c.enrollment_id + 30 := by
  intro c hc
  simp only [generate_claims] at hc
  rw [inject_off _ _ _ _ _ _ hoff] at hc
  dsimp only at hc
  have hmem : (fun (c : Claim) => (c.claim_date, c.enrollment_id)) c ∈
      List.map (fun (c : Claim) => (c.claim_date, c.enrollment_id)) _ :=
    List.mem_map_of_mem _ hc
  rw [map_map_proj (fun (c : Claim) => (c.claim_date, c.enrollment_id))
    (fun c => { c with created_at := now }) (fun a => rfl)] at hmem
  rw [map_map_proj (fun (c : Claim) => (c.claim_date, c.enrollment_id))
    (fun c => if c.patient_paid == some 0 then { c with patient_paid := none } else c)
    (fun a => by dsimp only; split <;> rfl)] at hmem
  rw [map_map_proj (fun (c : Claim) => (c.claim_date, c.enrollment_id))
    (fun c => if c.paid_amount == some 0 then { c with paid_amount := none } else c)
    (fun a => by dsimp only; split <;> rfl)] at hmem
  rw [stageDrawWhere_map paidMedical (fun q c => { c with patient_paid := some q })
    (uniformQ 0 50) (fun c => (c.claim_date, c.enrollment_id)) (fun x a => rfl)] at hmem
  rw [stageDrawWhere_map paidMedical (fun q c => { c with paid_amount := some q })
    (uniformQ 100 500) (fun c => (c.claim_date, c.enrollment_id)) (fun x a => rfl)] at hmem
  rw [stageDrawWhere_map paidPharmacy (fun q c => { c with patient_paid := some q })
    (uniformQ 0 500) (fun c => (c.claim_date, c.enrollment_id)) (fun x a => rfl)] at hmem
  rw [stageDrawWhere_map paidPharmacy (fun q c => { c with paid_amount := some q })
    (uniformQ 5000 15000) (fun c => (c.claim_date, c.enrollment_id)) (fun x a => rfl)] at hmem
  rw [map_map_proj (fun (c : Claim) => (c.claim_date, c.enrollment_id))
    (fun c => { c with paid_amount := some 0, patient_paid := some 0 }) (fun a => rfl)] at hmem
  rw [stageDraw_map (fun _ => true) (fun t c => { c with claim_status := t })
    (weighted_choice [PAID, DENIED, PENDING] [85/100, 1/10, 5/100] PAID)
    (fun c => (c.claim_date, c.enrollment_id)) (fun x a => rfl)] at hmem
  rw [map_map_proj (fun (c : Claim) => (c.claim_date, c.enrollment_id))
    (fun c => if c.claim_type == MEDICAL then { c with ndc_code := none } else c)
    (fun a => by dsimp only; split <;> rfl)] at hmem
  rw [stageDraw_map (fun c => c.claim_type == MEDICAL)
    (fun t c => { c with procedure_code := some t }) (choice procedure_codes "99213")
    (fun c => (c.claim_date, c.enrollment_id)) (fun x a => rfl)] at hmem
  rw [stageDraw_map (fun _ => true) (fun t c => { c with claim_type := t })
    (weighted_choice [PHARMACY, MEDICAL] [6/10, 4/10] PHARMACY)
    (fun c => (c.claim_date, c.enrollment_id)) (fun x a => rfl)] at hmem
  rcases List.mem_map.mp hmem with ⟨c0, hc0, heq⟩
  have hdate : c0.claim_date = c.claim_date ∧ c0.enrollment_id = c.enrollment_id := by
    have h := heq
    simp only [Prod.mk.injEq] at h
    exact h
  have hb := claimsPatientLoop_bound S _ _ _ c0 hc0
  rw [hdate.1, hdate.2] at hb
  exact hb

/-- A concrete shipment row for the claims counterexample and witnesses. -/
def sEx : Shipment :=
  { shipment_id := 1
    enrollment_id := (1970, 1)
    patient_id_hash := 0
    prescription_id := (1, 0)
    fill_date := 100
    ship_date := 100
    shipment_month := format_month_partition (100 * 86400)
    ndc_code := "00000-0000-00"
    product_name := "Program"
    days_supply := 30
    quantity := 1
    refill_number := 0
    pharmacy_id := 1
    claim_status := "PAID"
    copay_amount := some 0
    created_at := 0 }

/-- C1 counterexample: with the concrete one-patient input, the first
generated claim's date (day 70, inside the 30-day buffer before the only
shipment) is strictly before the patient's earliest ship date (day 100),
so claim dates are not bounded by the shipment date range itself. -/
theorem generate_claims_date_outside_ship_range :
    ∃ cl ∈ (generate_claims [eEx] [sEx] cfgEx 0 gEx).1,
      cl.claim_date < firstShipDay [sEx] cl.enrollment_id := by
  decide

/-- The first generated claim of the concrete input. -/
def clEx : Claim :=
  ((generate_claims [eEx] [sEx] cfgEx 0 gEx).1).headD
    (claimBase eEx 0 0)

theorem generate_claims_date_range_witness :
    cfgEx.data_quality.inject_issues = false ∧
    (firstShipDay [sEx] clEx.enrollment_id - 30 ≤ clEx.claim_date ∧
     clEx.claim_date ≤ lastShipDay [sEx] clEx.enrollment_id + 30) :=
  ⟨rfl, generate_claims_date_range [eEx] [sEx] cfgEx 0 gEx rfl clEx (by decide)⟩

/-! ### Seed determinism up to the wall clock (C2) -/

/-- An enrollment row with its wall-clock column cleared. -/
def Enrollment.noCreated (e : Enrollment) : Enrollment := { e with created_at := 0 }

/-- A case row with its wall-clock column cleared. -/
def Case.noCreated (c : Case) : Case := { c with created_at := 0 }

/-- A status-history row with its wall-clock column cleared. -/
def StatusRecord.noCreated (r : StatusRecord) : StatusRecord := { r with created_at := 0 }

/-- A shipment row with its wall-clock column cleared. -/
def Shipment.noCreated (s : Shipment) : Shipment := { s with created_at := 0 }

/-- A claim row with its wall-clock column cleared. -/
def Claim.noCreated (c : Claim) : Claim := { c with created_at := 0 }

theorem enrollmentRow_now (cfg : Config) (i : Nat) (now1 now2 : Int) (g : RNG) :
    ((enrollmentRow cfg i now1 g).1).noCreated = ((enrollmentRow cfg i now2 g).1).noCreated ∧
    (enrollmentRow cfg i now1 g).2 = (enrollmentRow cfg i now2 g).2 := ⟨rfl, rfl⟩

theorem enrollmentRows_now (cfg : Config) (now1 now2 : Int) :
    ∀ (cnt lo : Nat) (g : RNG),
      ((enrollmentRows cfg now1 lo cnt g).1).map Enrollment.noCreated =
        ((enrollmentRows cfg now2 lo cnt g).1).map Enrollment.noCreated ∧
      (enrollmentRows cfg now1 lo cnt g).2 = (enrollmentRows cfg now2 lo cnt g).2 := by
  intro cnt
  induction cnt with
  | zero => intro lo g; exact ⟨rfl, rfl⟩
  | succ m ih =>
    intro lo g
    have hrow := enrollmentRow_now cfg lo now1 now2 g
    constructor
    · show ((enrollmentRow cfg lo now1 g).1 ::
        (enrollmentRows cfg now1 (lo + 1) m (enrollmentRow cfg lo now1 g).2).1).map
          Enrollment.noCreated =
        ((enrollmentRow cfg lo now2 g).1 ::
        (enrollmentRows cfg now2 (lo + 1) m (enrollmentRow cfg lo now2 g).2).1).map
          Enrollment.noCreated
      rw [List.map_cons, List.map_cons, hrow.1, hrow.2, (ih (lo + 1) _).1]
    · show (enrollmentRows cfg now1 (lo + 1) m (enrollmentRow cfg lo now1 g).2).2 =
        (enrollmentRows cfg now2 (lo + 1) m (enrollmentRow cfg lo now2 g).2).2
      rw [hrow.2, (ih (lo + 1) _).2]

theorem generate_enrollments_now (cfg : Config) (now1 now2 : Int) (g : RNG)
    (hoff : cfg.data_quality.inject_issues = false) :
    ((generate_enrollments cfg now1 g).1).map Enrollment.noCreated =
      ((generate_enrollments cfg now2 g).1).map Enrollment.noCreated := by
  show ((inject_data_quality_issues _ _ _ now1
      (enrollmentRows cfg now1 0 cfg.scale.enrollments g).1
      (enrollmentRows cfg now1 0 cfg.scale.enrollments g).2).1).map Enrollment.noCreated =
    ((inject_data_quality_issues _ _ _ now2
      (enrollmentRows cfg now2 0 cfg.scale.enrollments g).1
      (enrollmentRows cfg now2 0 cfg.scale.enrollments g).2).1).map Enrollment.noCreated
  rw [inject_off _ _ _ _ _ _ hoff, inject_off _ _ _ _ _ _ hoff]
  exact (enrollmentRows_now cfg now1 now2 cfg.scale.enrollments 0 g).1

theorem caseRow_now (e : Enrollment) (now1 now2 : Int) (g : RNG) :
    ((caseRow e now1 g).1).noCreated = ((caseRow e now2 g).1).noCreated ∧
    (caseRow e now1 g).2 = (caseRow e now2 g).2 := ⟨rfl, rfl⟩

theorem caseRows_now (now1 now2 : Int) :
    ∀ (E : List Enrollment) (g : RNG),
      ((caseRows now1 E g).1).map Case.noCreated = ((caseRows now2 E g).1).map Case.noCreated ∧
      (caseRows now1 E g).2 = (caseRows now2 E g).2 := by
  intro E
  induction E with
  | nil => intro g; exact ⟨rfl, rfl⟩
  | cons e es ih =>
    intro g
    have hrow := caseRow_now e now1 now2 g
    rw [caseRows_cons, caseRows_cons]
    constructor
    · simp only [List.map_cons]
      rw [hrow.1, hrow.2, (ih _).1]
    · simp only []
      rw [hrow.2, (ih _).2]

theorem generate_cases_now (E : List Enrollment) (cfg : Config) (now1 now2 : Int) (g : RNG)
    (hoff : cfg.data_quality.inject_issues = false) :
    ((generate_cases E cfg now1 g).1).map Case.noCreated =
      ((generate_cases E cfg now2 g).1).map Case.noCreated := by
  rw [generate_cases_eq, generate_cases_eq, inject_off _ _ _ _ _ _ hoff,
    inject_off _ _ _ _ _ _ hoff]
  exact (caseRows_now now1 now2 E g).1

theorem generate_claims_now (E : List Enrollment) (S : List Shipment) (cfg : Config)
    (now1 now2 : Int) (g : RNG) (hoff : cfg.data_quality.inject_issues = false) :
    ((generate_claims E S cfg now1 g).1).map Claim.noCreated =
      ((generate_claims E S cfg now2 g).1).map Claim.noCreated := by
  simp only [generate_claims]
  rw [inject_off _ _ _ _ _ _ hoff, inject_off _ _ _ _ _ _ hoff]
  dsimp only
  rw [map_map_proj Claim.noCreated (fun c => { c with created_at := now1 }) (fun a => rfl),
    map_map_proj Claim.noCreated (fun c => { c with created_at := now2 }) (fun a => rfl)]

theorem shipmentStep_now (cfg : Config) (e : Enrollment) (now1 now2 : Int)
    (refill_num counter : Nat) (ship : Int) (g : RNG) :
    ((shipmentStep cfg e now1 refill_num counter ship g).1).noCreated =
      ((shipmentStep cfg e now2 refill_num counter ship g).1).noCreated ∧
    (shipmentStep cfg e now1 refill_num counter ship g).2 =
      (shipmentStep cfg e now2 refill_num counter ship g).2 := ⟨rfl, rfl⟩

theorem refillLoop_now (cfg : Config) (e : Enrollment) (now1 now2 : Int) :
    ∀ (rem refill_num counter : Nat) (ship : Int) (g : RNG),
      ((refillLoop cfg e now1 rem refill_num counter ship g).1).map Shipment.noCreated =
        ((refillLoop cfg e now2 rem refill_num counter ship g).1).map Shipment.noCreated ∧
      (refillLoop cfg e now1 rem refill_num counter ship g).2 =
        (refillLoop cfg e now2 rem refill_num counter ship g).2 := by
  intro rem
  induction rem with
  | zero => intro rn ctr ship g; exact ⟨rfl, rfl⟩
  | succ m ih =>
    intro rn ctr ship g
    have hstep := shipmentStep_now cfg e now1 now2 rn ctr ship g
    simp only [refillLoop]
    rw [hstep.2]
    split
    · exact ⟨by simp only [List.map_cons, List.map_nil]; rw [hstep.1], rfl⟩
    · constructor
      · simp only [List.map_cons]
        rw [hstep.1, (ih _ _ _ _).1]
      · simp only []
        rw [(ih _ _ _ _).2]

theorem patientShipments_now (cfg : Config) (e : Enrollment) (now1 now2 : Int)
    (counter : Nat) (g : RNG) :
    ((patientShipments cfg e now1 counter g).1).map Shipment.noCreated =
      ((patientShipments cfg e now2 counter g).1).map Shipment.noCreated ∧
    (patientShipments cfg e now1 counter g).2 = (patientShipments cfg e now2 counter g).2 := by
  unfold patientShipments
  exact refillLoop_now cfg e now1 now2 _ _ _ _ _

theorem shipmentRows_now (cfg : Config) (now1 now2 : Int) :
    ∀ (E : List Enrollment) (counter : Nat) (g : RNG),
      ((shipmentRows cfg now1 E counter g).1).map Shipment.noCreated =
        ((shipmentRows cfg now2 E counter g).1).map Shipment.noCreated ∧
      (shipmentRows cfg now1 E counter g).2 = (shipmentRows cfg now2 E counter g).2 := by
  intro E
  induction E with
  | nil => intro ctr g; exact ⟨rfl, rfl⟩
  | cons e es ih =>
    intro ctr g
    have hpat := patientShipments_now cfg e now1 now2 ctr g
    have h21 := congrArg Prod.fst hpat.2
    have h22 := congrArg Prod.snd hpat.2
    simp only [shipmentRows]
    rw [h21, h22]
    constructor
    · simp only [List.map_append]
      rw [hpat.1, (ih (patientShipments cfg e now2 ctr g).2.1
        (patientShipments cfg e now2 ctr g).2.2).1]
    · have h := (ih (patientShipments cfg e now2 ctr g).2.1
        (patientShipments cfg e now2 ctr g).2.2).2
      rw [congrArg Prod.fst h, congrArg Prod.snd h]

theorem generate_shipments_now (E : List Enrollment) (cfg : Config) (now1 now2 : Int)
    (g : RNG) (hoff : cfg.data_quality.inject_issues = false) :
    ((generate_shipments E cfg now1 g).1).map Shipment.noCreated =
      ((generate_shipments E cfg now2 g).1).map Shipment.noCreated := by
  rw [generate_shipments_eq, generate_shipments_eq, inject_off _ _ _ _ _ _ hoff,
    inject_off _ _ _ _ _ _ hoff]
  exact (shipmentRows_now cfg now1 now2 _ 0 _).1

theorem statusRecords_now (c : Case) (now1 now2 : Int) :
    ∀ (path : List String) (i : Nat) (ts : Int) (g : RNG),
      ((statusRecords c now1 path i ts g).1).map StatusRecord.noCreated =
        ((statusRecords c now2 path i ts g).1).map StatusRecord.noCreated ∧
      (statusRecords c now1 path i ts g).2 = (statusRecords c now2 path i ts g).2 := by
  intro path
  induction path with
  | nil => intro i ts g; exact ⟨rfl, rfl⟩
  | cons s rest ih =>
    intro i ts g
    simp only [statusRecords]
    repeat' split
    all_goals
      exact ⟨by simp only [List.map_cons]; exact congrArg₂ List.cons rfl (ih _ _ _).1,
        (ih _ _ _).2⟩

theorem caseHistory_now (c : Case) (inquiry_ts : Option Int) (enrolled_ts : Int)
    (now1 now2 : Int) (g : RNG) :
    ((caseHistory c inquiry_ts enrolled_ts now1 g).1).map StatusRecord.noCreated =
      ((caseHistory c inquiry_ts enrolled_ts now2 g).1).map StatusRecord.noCreated ∧
    (caseHistory c inquiry_ts enrolled_ts now1 g).2 =
      (caseHistory c inquiry_ts enrolled_ts now2 g).2 := by
  rw [caseHistory_eq, caseHistory_eq]
  exact statusRecords_now c now1 now2 _ _ _ _

theorem caseHistoryMatches_now (c : Case) (now1 now2 : Int) :
    ∀ (ms : List Enrollment) (g : RNG),
      ((caseHistoryMatches c now1 ms g).1).map StatusRecord.noCreated =
        ((caseHistoryMatches c now2 ms g).1).map StatusRecord.noCreated ∧
      (caseHistoryMatches c now1 ms g).2 = (caseHistoryMatches c now2 ms g).2 := by
  intro ms
  induction ms with
  | nil => intro g; exact ⟨rfl, rfl⟩
  | cons e es ih =>
    intro g
    have hch := caseHistory_now c e.inquiry_ts e.enrolled_ts now1 now2 g
    simp only [caseHistoryMatches]
    rw [hch.2]
    constructor
    · simp only [List.map_append]
      rw [hch.1, (ih (caseHistory c e.inquiry_ts e.enrolled_ts now2 g).2).1]
    · exact (ih (caseHistory c e.inquiry_ts e.enrolled_ts now2 g).2).2

theorem historyRows_now (E : List Enrollment) (now1 now2 : Int) :
    ∀ (C : List Case) (g : RNG),
      ((historyRows E now1 C g).1).map StatusRecord.noCreated =
        ((historyRows E now2 C g).1).map StatusRecord.noCreated ∧
      (historyRows E now1 C g).2 = (historyRows E now2 C g).2 := by
  intro C
  induction C with
  | nil => intro g; exact ⟨rfl, rfl⟩
  | cons c cs ih =>
    intro g
    simp only [historyRows]
    split
    · have hch := caseHistory_now c none 0 now1 now2 g
      rw [hch.2]
      constructor
      · simp only [List.map_append]
        rw [hch.1, (ih (caseHistory c none 0 now2 g).2).1]
      · exact (ih (caseHistory c none 0 now2 g).2).2
    · have hcm := caseHistoryMatches_now c now1 now2
        (E.filter (fun e => e.enrollment_id = c.enrollment_id)) g
      rw [hcm.2]
      constructor
      · simp only [List.map_append]
        rw [hcm.1, (ih (caseHistoryMatches c now2
          (E.filter (fun e => e.enrollment_id = c.enrollment_id)) g).2).1]
      · exact (ih (caseHistoryMatches c now2
          (E.filter (fun e => e.enrollment_id = c.enrollment_id)) g).2).2

theorem generate_status_history_eq (C : List Case) (E : List Enrollment) (cfg : Config)
    (now : Int) (g : RNG) :
    generate_status_history C E cfg now g =
      inject_data_quality_issues cfg.data_quality
        [fun t r => { r with status_start_ts := t },
         fun t r => { r with status_end_ts := some t }]
        [fun r => { r with status_end_ts := none }, fun r => { r with status_reason := none }]
        now (historyRows E now C g).1 (historyRows E now C g).2 := rfl

theorem generate_status_history_now (C : List Case) (E : List Enrollment) (cfg : Config)
    (now1 now2 : Int) (g : RNG) (hoff : cfg.data_quality.inject_issues = false) :
    ((generate_status_history C E cfg now1 g).1).map StatusRecord.noCreated =
      ((generate_status_history C E cfg now2 g).1).map StatusRecord.noCreated := by
  rw [generate_status_history_eq, generate_status_history_eq, inject_off _ _ _ _ _ _ hoff,
    inject_off _ _ _ _ _ _ hoff]
  exact (historyRows_now E now1 now2 C g).1

/-- C2 (amended): generation is seed-deterministic up to the wall clock.
Each generator is a pure function of the configuration (whose seed fixes
the oracle stream) and the wall-clock instant; with issue injection
disabled, two runs over the same config and stream at different instants
produce tables identical in every column except `created_at`, the
per-row `datetime.now()` stamp. -/
theorem generators_deterministic_up_to_wall_clock (cfg : Config) (E : List Enrollment)
    (S : List Shipment) (C : List Case) (now1 now2 : Int) (g : RNG)
    (hoff : cfg.data_quality.inject_issues = false) :
    ((generate_enrollments cfg now1 g).1).map Enrollment.noCreated =
      ((generate_enrollments cfg now2 g).1).map Enrollment.noCreated ∧
    ((generate_cases E cfg now1 g).1).map Case.noCreated =
      ((generate_cases E cfg now2 g).1).map Case.noCreated ∧
    ((generate_status_history C E cfg now1 g).1).map StatusRecord.noCreated =
      ((generate_status_history C E cfg now2 g).1).map StatusRecord.noCreated ∧
    ((generate_shipments E cfg now1 g).1).map Shipment.noCreated =
      ((generate_shipments E cfg now2 g).1).map Shipment.noCreated ∧
    ((generate_claims E S cfg now1 g).1).map Claim.noCreated =
      ((generate_claims E S cfg now2 g).1).map Claim.noCreated :=
  ⟨generate_enrollments_now cfg now1 now2 g hoff,
   generate_cases_now E cfg now1 now2 g hoff,
   generate_status_history_now C E cfg now1 now2 g hoff,
   generate_shipments_now E cfg now1 now2 g hoff,
   generate_claims_now E S cfg now1 now2 g hoff⟩

/-- C2 counterexample: two runs of `generate_enrollments` over the same
configuration and oracle stream but at different wall-clock instants
produce different tables — every row's `created_at` is the clock read, so
the outputs are not identical in every column. -/
theorem generate_enrollments_not_identical_across_runs :
    (generate_enrollments cfgEx 0 gEx).1 ≠ (generate_enrollments cfgEx 1 gEx).1 := by
  decide

theorem generators_deterministic_witness :
    cfgEx.data_quality.inject_issues = false ∧
    ((generate_enrollments cfgEx 0 gEx).1).map Enrollment.noCreated =
      ((generate_enrollments cfgEx 1 gEx).1).map Enrollment.noCreated :=
  ⟨rfl, (generators_deterministic_up_to_wall_clock cfgEx [eEx] [sEx] [] 0 1 gEx rfl).1⟩

end PSP
